import Mathlib

set_option maxRecDepth 100000

/-
Verification development for the inventory-optimizer repository (src/app.py).

The embedding models the tabular data handled by pandas as a `DF`
(column names plus rows of cells), the schema-normalization adapter as
`load_and_process_data` (with `normalizeRng` threading the global numpy
generator state explicitly), and the metric calculation of the main app
body as `computeMetrics`.

Modelling conventions (library behaviour that app.py relies on):
  * numpy/pandas floats are modelled by exact rationals (`ℚ`);
    `np.sqrt` is modelled by `Real.sqrt` on top of the rational core.
  * `pandas.to_datetime` is modelled on the value grammar the claims use:
    ISO `YYYY-MM-DD` strings parse to a date, numeric cells parse as epoch
    offsets, missing values (`null`) become `NaT` (kept as `null`), and any
    other string raises, which the adapter does not catch (`exn`).
  * `.astype(int)` truncates toward zero; applying it to a non-finite or
    missing value raises, modelled as an `exn` outcome.
  * Comparing or summing non-numeric cells raises a TypeError in pandas;
    this is modelled as an `exn` outcome as well.
  * Duplicate column labels are modelled by first-occurrence lookup.
  * `np.random.seed(42)` / `np.random.randint(10, 100, size=n)` is modelled
    by a faithful MT19937 implementation: `init_genrand` seeding, the
    standard linear recurrence in streaming form, tempering, and the
    masked-rejection bounded draw of numpy RandomState (mask 127,
    reject masked values above 89, add the low bound 10).  The stream is
    cut off by an ample fuel bound, with the low bound as padding default;
    the padding is unreachable for the inputs considered here.
-/

/-- Cell values of a tabular dataset: strings, numbers (pandas floats as
exact rationals), missing values (NaN/None/NaT) and parsed datetimes. -/
inductive Cell where
  | str (s : String)
  | num (q : ℚ)
  | null
  | date (d : ℚ)
deriving DecidableEq, Repr

/-- A dataframe: ordered column names and rows of cells. -/
structure DF where
  cols : List String
  rows : List (List Cell)
deriving DecidableEq, Repr

abbrev Row := List Cell

/-- Cell of a row at a column index; out-of-range reads are missing values. -/
def getCellD (r : Row) (i : Nat) : Cell := r.getD i Cell.null

/-- Python `str.title()` on the trimmed string, as used in
`df.columns = [c.strip().title() for c in df.columns]`: the first letter of
each maximal alphabetic run is upper-cased, the rest lower-cased. -/
def pyTitleGo : List Char → Bool → List Char
  | [], _ => []
  | c :: cs, prevAlpha =>
    if c.isAlpha then
      (if prevAlpha then c.toLower else c.toUpper) :: pyTitleGo cs true
    else
      c :: pyTitleGo cs false

/-- Python `str.strip()`: drop leading and trailing whitespace. -/
def pyStrip (cs : List Char) : List Char :=
  ((cs.dropWhile Char.isWhitespace).reverse.dropWhile Char.isWhitespace).reverse

/-- Cleaning of one column name, c.strip().title() in the source. -/
def cleanName (s : String) : String := String.mk (pyTitleGo (pyStrip s.toList) false)

/-- The alias table `column_mapping` of `load_and_process_data`. -/
def column_mapping : List (String × String) :=
  [("Branch", "Store"), ("Store Name", "Store"),
   ("Product Line", "SKU"), ("Dept", "SKU"), ("Category", "SKU"),
   ("Qty", "Quantity"), ("Sales Qty", "Quantity"),
   ("Unit Price", "Price"), ("Price Per Unit", "Price"),
   ("Invoice Date", "Date")]

/-- Renaming of a single label, as df.rename(columns=column_mapping)
does per column. -/
def renameCol (c : String) : String :=
  ((column_mapping.find? (fun p => p.1 = c)).map Prod.snd).getD c

/-- Header canonicalization followed by aliasing (steps 2 and 3 of the
adapter). -/
def resolveCols (cols : List String) : List String :=
  (cols.map cleanName).map renameCol

/-- MT19937 state initialisation `init_genrand`, producing the 624-word
state vector; `mtInitGo x i fuel` emits `x` and continues the recurrence
`mt[i] = 1812433253 * (mt[i-1] xor (mt[i-1] >>> 30)) + i (mod 2^32)`. -/
def mtInitGo : Nat → Nat → Nat → List Nat
  | _, _, 0 => []
  | x, i, fuel + 1 =>
    x :: mtInitGo ((1812433253 * (x ^^^ (x >>> 30)) + i) % 4294967296) (i + 1) fuel

/-- The seeded 624-word MT19937 state, `np.random.seed(seed)`. -/
def mtInit (seed : Nat) : List Nat := mtInitGo (seed % 4294967296) 1 624

/-- One step of the MT19937 linear recurrence
`x[k+624] = x[k+397] xor (((x[k] and 2^31) or (x[k+1] mod 2^31)) >>> 1)
            xor (parity * 0x9908b0df)`,
given the window of the most recent 624 words, oldest first.  This is the
same recurrence that numpy computes block-wise in place. -/
def mtNext (w : List Nat) : Nat :=
  let y := (w.getD 0 0 &&& 2147483648) ||| (w.getD 1 0 &&& 2147483647)
  (w.getD 397 0) ^^^ (y >>> 1) ^^^ (if y % 2 = 1 then 2567483615 else 0)

/-- The raw (untempered) MT19937 word stream after the seeded state. -/
def mtStream : List Nat → Nat → List Nat
  | _, 0 => []
  | w, k + 1 =>
    let x := mtNext w
    x :: mtStream (w.drop 1 ++ [x]) k

/-- MT19937 tempering of one raw word. -/
def temper (x : Nat) : Nat :=
  let y := x ^^^ (x >>> 11)
  let y := y ^^^ ((y <<< 7) &&& 2636928640)
  let y := y ^^^ ((y <<< 15) &&& 4022730752)
  y ^^^ (y >>> 18)

/-- First `k` 32-bit outputs of numpy RandomState seeded with `seed`. -/
def npRawOut (seed k : Nat) : List Nat :=
  (mtStream (mtInit seed) k).map temper

/-- Masked-rejection bounded draw of numpy RandomState (`rk_interval`):
draw a 32-bit word, keep its low bits (`mask`), reject values above `mx`,
emit `lo + value`; collect `n` values and return them with the remaining
stream.  Exhausting the stream pads with `lo` (unreachable in practice). -/
def collectR (mask lo mx : Nat) : List Nat → Nat → List ℚ × List Nat
  | outs, 0 => ([], outs)
  | [], n + 1 => (List.replicate (n + 1) ((lo : ℚ)), [])
  | o :: rest, n + 1 =>
    if o &&& mask ≤ mx then
      let p := collectR mask lo mx rest n
      (((lo + (o &&& mask) : Nat) : ℚ) :: p.1, p.2)
    else
      collectR mask lo mx rest (n + 1)

/-- Seeded price draw, np.random.seed(42) followed by
np.random.randint(10, 100, size=n): per-row
synthesized prices together with the generator state left behind
(modelled as the unconsumed output stream). -/
def npRandint42 (n : Nat) : List ℚ × List Nat :=
  collectR 127 10 89 (npRawOut 42 (16 * n + 16)) n

/-- Split a character list on a separator character. -/
def splitOnChar (sep : Char) : List Char → List (List Char)
  | [] => [[]]
  | c :: cs =>
    let r := splitOnChar sep cs
    if c = sep then [] :: r
    else
      match r with
      | [] => [[c]]
      | g :: gs => (c :: g) :: gs

/-- Parse a nonempty all-digit character list as a natural number. -/
def digitsToNat? (cs : List Char) : Option Nat :=
  if cs ≠ [] ∧ cs.all Char.isDigit then
    some (cs.foldl (fun a c => a * 10 + (c.toNat - 48)) 0)
  else none

/-- Modelled subset of `pandas.to_datetime` on a single string: ISO
`YYYY-MM-DD` dates, encoded injectively and order-preservingly as
`y * 10000 + m * 100 + d`. -/
def parseIso (s : String) : Option ℚ :=
  match splitOnChar (Char.ofNat 45) s.toList with
  | [y, m, d] =>
    match digitsToNat? y, digitsToNat? m, digitsToNat? d with
    | some yn, some mn, some dn =>
      if 1 ≤ mn ∧ mn ≤ 12 ∧ 1 ≤ dn ∧ dn ≤ 31 then
        some ((yn * 10000 + mn * 100 + dn : Nat) : ℚ)
      else none
    | _, _, _ => none
  | _ => none

/-- Date parsing (pd.to_datetime) of one cell: missing values become `NaT` (kept as
`null`) without error, numbers parse as epoch offsets, parsed dates pass
through, and an unparseable string raises. -/
def toDatetimeCell : Cell → Except String Cell
  | Cell.null => Except.ok Cell.null
  | Cell.num q => Except.ok (Cell.date q)
  | Cell.date d => Except.ok (Cell.date d)
  | Cell.str s =>
    match parseIso s with
    | some d => Except.ok (Cell.date d)
    | none => Except.error "to_datetime"

/-- Apply a fallible per-row transformation to every row, stopping at the
first raised error (column-wise pandas operations raise before any
assignment happens). -/
def mapRowsE (f : Row → Except String Row) : List Row → Except String (List Row)
  | [] => Except.ok []
  | r :: rs =>
    match f r, mapRowsE f rs with
    | Except.error e, _ => Except.error e
    | Except.ok _, Except.error e => Except.error e
    | Except.ok r2, Except.ok rs2 => Except.ok (r2 :: rs2)

/-- Keep the rows on which a fallible predicate returns `true`, raising if
the predicate raises anywhere (boolean indexing with a mask). -/
def filterRowsE (p : Row → Except String Bool) : List Row → Except String (List Row)
  | [] => Except.ok []
  | r :: rs =>
    match p r, filterRowsE p rs with
    | Except.error e, _ => Except.error e
    | Except.ok _, Except.error e => Except.error e
    | Except.ok b, Except.ok rs2 => Except.ok (if b then r :: rs2 else rs2)

/-- Cast from float to int64: truncation toward zero. -/
def ratTrunc (q : ℚ) : ℤ := q.num / (q.den : ℤ)

/-- Division followed by the integer cast, astype(int), on one pair of
cells: defined for numeric cells
with a nonzero divisor; otherwise the division yields NaN/inf or a
TypeError and the `astype(int)` raises. -/
def divCast (t p : Cell) : Except String Cell :=
  match t, p with
  | Cell.num a, Cell.num b =>
    if b = 0 then Except.error "astype"
    else Except.ok (Cell.num ((ratTrunc (a / b) : ℤ) : ℚ))
  | _, _ => Except.error "astype"

/-- Positivity test of one quantity cell (the comparison of the Quantity
column with 0): numbers compare, missing values
compare false, anything else raises a TypeError. -/
def gtZeroCell : Cell → Except String Bool
  | Cell.num q => Except.ok (decide (0 < q))
  | Cell.null => Except.ok false
  | _ => Except.error "TypeError"

/-- One row of the quantity derivation
assigning the cast quotient of two columns to a new Quantity column: the
quotient cell is
appended as the new last column. -/
def qXform (ni di : Nat) (r : Row) : Except String Row :=
  (divCast (getCellD r ni) (getCellD r di)).map (fun c => r ++ [c])

/-- The rows of a dataset with a derived `Quantity` column appended, where
`Quantity = (numerator / denominator).astype(int)` for the columns at the
given indices. -/
def deriveQuantityRows (ni di : Nat) (rows : List Row) : Except String (List Row) :=
  mapRowsE (qXform ni di) rows

/-- One row of the `Date` column parse
assigning the parsed Date column back in place. -/
def dateXform (di : Nat) (r : Row) : Except String Row :=
  (toDatetimeCell (getCellD r di)).map (fun c => r.set di c)

/-- The global numpy generator state, modelled as the stream of raw 32-bit
outputs it will produce next. -/
abbrev RngState := List Nat

/-- Step 4 of the adapter (quantity resolution), with the global random
generator state threaded through.  If `Quantity` is present it is used
as-is; else if `Total` and `Price` are present, `Quantity` is derived from
them; else if `Weekly_Sales` is present, the generator is re-seeded with
42, a per-row `Price` in [10, 100) is drawn (overwriting any existing
`Price` column) and `Quantity` is derived from `Weekly_Sales / Price`;
else the dataset is left unchanged. -/
def quantityStageRng (g : RngState) (df : DF) : Except String DF × RngState :=
  if df.cols.contains "Quantity" then
    (Except.ok df, g)
  else if df.cols.contains "Total" && df.cols.contains "Price" then
    let ti := (df.cols.findIdx? (fun c => c = "Total")).getD 0
    let pi := (df.cols.findIdx? (fun c => c = "Price")).getD 0
    ((deriveQuantityRows ti pi df.rows).map (fun rows2 => DF.mk (df.cols ++ ["Quantity"]) rows2), g)
  else if df.cols.contains "Weekly_Sales" then
    -- np.random.seed(42) followed by drawing randint(10, 100, size=len(df)) into Price
    let drawn := npRandint42 df.rows.length
    let priced : DF :=
      match df.cols.findIdx? (fun c => c = "Price") with
      | some pi => DF.mk df.cols (List.zipWith (fun r p => r.set pi (Cell.num p)) df.rows drawn.1)
      | none => DF.mk (df.cols ++ ["Price"]) (List.zipWith (fun r p => r ++ [Cell.num p]) df.rows drawn.1)
    let wi := (priced.cols.findIdx? (fun c => c = "Weekly_Sales")).getD 0
    let pi2 := (priced.cols.findIdx? (fun c => c = "Price")).getD 0
    ((deriveQuantityRows wi pi2 priced.rows).map (fun rows3 => DF.mk (priced.cols ++ ["Quantity"]) rows3), drawn.2)
  else
    (Except.ok df, g)

/-- Quantity resolution viewed as a pure function (the result component is
independent of the incoming generator state because the adapter re-seeds
before drawing; `quantityStageRng_fst` below proves this). -/
def quantityStage (df : DF) : Except String DF := (quantityStageRng [] df).1

/-- Row filtering (step 7 of the adapter): keep the rows whose Quantity
cell is positive,
applied only when a `Quantity` column exists. -/
def filterStage (df : DF) : Except String DF :=
  if df.cols.contains "Quantity" then
    let qi := (df.cols.findIdx? (fun c => c = "Quantity")).getD 0
    (filterRowsE (fun r => gtZeroCell (getCellD r qi)) df.rows).map (fun rows2 => DF.mk df.cols rows2)
  else
    Except.ok df

/-- Outcome of `load_and_process_data`: a canonical dataset, one of the two
diagnosed rejections (`st.error` followed by `return None`), or an
uncaught exception escaping the function. -/
inductive NormResult where
  | ok (df : DF)
  | noDateCol
  | noSkuCol
  | exn (msg : String)
deriving DecidableEq, Repr

/-- The schema-normalization adapter `load_and_process_data`, starting from
the parsed tabular data, with the global numpy generator state threaded
through: clean and alias the header, require and parse the `Date` column,
resolve `Quantity` (possibly drawing synthesized prices), filter
non-positive quantities, and require a `SKU` column. -/
def normalizeRng (g : RngState) (df : DF) : NormResult × RngState :=
  let cols1 := resolveCols df.cols
  match cols1.findIdx? (fun c => c = "Date") with
  | none => (NormResult.noDateCol, g)
  | some di =>
    match mapRowsE (dateXform di) df.rows with
    | Except.error e => (NormResult.exn e, g)
    | Except.ok rows1 =>
      let q := quantityStageRng g (DF.mk cols1 rows1)
      match q.1 with
      | Except.error e => (NormResult.exn e, q.2)
      | Except.ok df2 =>
        match filterStage df2 with
        | Except.error e => (NormResult.exn e, q.2)
        | Except.ok df3 =>
          (if df3.cols.contains "SKU" then NormResult.ok df3 else NormResult.noSkuCol, q.2)

/-- The adapter as a pure function of the uploaded data. -/
def load_and_process_data (df : DF) : NormResult := (normalizeRng [] df).1

/-- Calculator parameters from the sidebar controls. -/
structure Params where
  holding_cost : ℚ
  lead_time : ℚ
  ordering_cost : ℚ
deriving DecidableEq, Repr

/-- The scalar quantities computed by the main app body for one SKU, with
the EOQ radicand kept as an explicit numerator and denominator (the code
divides them and takes `np.sqrt` with no guard). -/
structure MetricsQ where
  avg_daily_demand : ℚ
  avg_price : ℚ
  annual_demand : ℚ
  eoq_num : ℚ
  eoq_den : ℚ
  safety_stock : ℚ
  reorder_point : ℚ
  ordering_cost : ℚ
  holding_cost : ℚ
deriving DecidableEq, Repr

/-- Outcome of the metric calculation: an uncaught KeyError (missing
column), an uncaught TypeError from pandas arithmetic, the
"Not enough data" branch, or a metrics bundle. -/
inductive CalcResult where
  | keyErr (col : String)
  | typeErr (msg : String)
  | notEnoughData
  | metrics (m : MetricsQ)
deriving DecidableEq, Repr

/-- Comparison used by the sort over the Date column: dates ascending,
missing
dates last. -/
def dateLe (di : Nat) (r1 r2 : Row) : Bool :=
  match getCellD r1 di, getCellD r2 di with
  | Cell.date a, Cell.date b => decide (a ≤ b)
  | Cell.date _, _ => true
  | _, _ => false

/-- Insertion step of the row sort. -/
def insertRow (le : Row → Row → Bool) (r : Row) : List Row → List Row
  | [] => [r]
  | x :: xs => if le x r then x :: insertRow le r xs else r :: x :: xs

/-- Sorting of the rows by the Date column (sort_values). -/
def sortRows (di : Nat) (rows : List Row) : List Row :=
  rows.foldr (fun r acc => insertRow (dateLe di) r acc) []

/-- Sum of a list of quantity cells, skipping missing values; a
non-numeric cell raises a TypeError. -/
def qSum : List Cell → Except String ℚ
  | [] => Except.ok 0
  | Cell.num q :: cs => (qSum cs).map (fun s => q + s)
  | Cell.null :: cs => qSum cs
  | _ :: _ => Except.error "TypeError"

/-- Insertion step for sorting the distinct group keys ascending. -/
def insertQ (x : ℚ) : List ℚ → List ℚ
  | [] => [x]
  | y :: ys => if y ≤ x then y :: insertQ x ys else x :: y :: ys

/-- Sort a list of rationals ascending. -/
def sortQ (l : List ℚ) : List ℚ := l.foldr insertQ []

/-- Distinct date keys appearing in a column, in first-appearance order;
missing dates are dropped (`groupby` excludes null keys). -/
def dateKeys (di : Nat) (rows : List Row) : List ℚ :=
  rows.foldl (fun acc r =>
    match getCellD r di with
    | Cell.date d => if acc.contains d then acc else acc ++ [d]
    | _ => acc) []

/-- Grouping by Date and summing Quantity over a fixed key list: for each
date key, the sum of the quantity cells of the rows carrying it. -/
def groupSums (di qi : Nat) (rows : List Row) : List ℚ → Except String (List (ℚ × ℚ))
  | [] => Except.ok []
  | d :: ds =>
    match qSum ((rows.filter (fun r => decide (getCellD r di = Cell.date d))).map (fun r => getCellD r qi)),
          groupSums di qi rows ds with
    | Except.error e, _ => Except.error e
    | Except.ok _, Except.error e => Except.error e
    | Except.ok s, Except.ok rest => Except.ok ((d, s) :: rest)

/-- Numeric values of a column, skipping missing values; a string or date
cell makes the aggregation raise. -/
def numsOf : List Cell → Except String (List ℚ)
  | [] => Except.ok []
  | Cell.num q :: cs => (numsOf cs).map (fun l => q :: l)
  | Cell.null :: cs => numsOf cs
  | _ :: _ => Except.error "TypeError"

/-- Mean of a column (Series.mean) over the numeric values; an
all-missing column would
propagate NaN into every metric, modelled as a raising outcome. -/
def meanQ (l : List ℚ) : Except String ℚ :=
  if l.length = 0 then Except.error "NaN" else Except.ok (l.sum / (l.length : ℚ))

/-- The metric computation of the main app body for a selected SKU: filter
the canonical data to the SKU, sort by date, aggregate daily sales, and if
any remain, compute average daily demand, average price (fallback 50 when
no `Price` column exists), annual demand, the EOQ radicand numerator and
denominator, safety stock and reorder point. -/
def computeMetrics (df : DF) (sku : Cell) (p : Params) : CalcResult :=
  match df.cols.findIdx? (fun c => c = "SKU") with
  | none => CalcResult.keyErr "SKU"
  | some si =>
    match df.cols.findIdx? (fun c => c = "Date") with
    | none => CalcResult.keyErr "Date"
    | some di =>
      let skuRows := sortRows di (df.rows.filter (fun r => decide (getCellD r si = sku)))
      match df.cols.findIdx? (fun c => c = "Quantity") with
      | none => CalcResult.keyErr "Quantity"
      | some qi =>
        match groupSums di qi skuRows (sortQ (dateKeys di skuRows)) with
        | Except.error e => CalcResult.typeErr e
        | Except.ok daily =>
          if 0 < daily.length then
            let avgPriceE : Except String ℚ :=
              match df.cols.findIdx? (fun c => c = "Price") with
              | some pIdx => numsOf (skuRows.map (fun r => getCellD r pIdx)) >>= meanQ
              | none => Except.ok 50
            match avgPriceE with
            | Except.error e => CalcResult.typeErr e
            | Except.ok avg_price =>
              let avg_daily := (daily.map Prod.snd).sum / (daily.length : ℚ)
              let annual := avg_daily * 365
              CalcResult.metrics
                { avg_daily_demand := avg_daily
                  avg_price := avg_price
                  annual_demand := annual
                  eoq_num := 2 * annual * p.ordering_cost
                  eoq_den := avg_price * p.holding_cost
                  safety_stock := avg_daily * p.lead_time * 1.65
                  reorder_point := avg_daily * p.lead_time + avg_daily * p.lead_time * 1.65
                  ordering_cost := p.ordering_cost
                  holding_cost := p.holding_cost }
          else CalcResult.notEnoughData

/-- EOQ of a metrics bundle:
np.sqrt((2 * annual_demand * ordering_cost) / (avg_price * holding_cost)). -/
noncomputable def realEoq (m : MetricsQ) : ℝ :=
  Real.sqrt ((m.eoq_num : ℝ) / (m.eoq_den : ℝ))

/-- Total cost of a metrics bundle:
(annual_demand/eoq)*ordering_cost + (eoq/2)*avg_price*holding_cost. -/
noncomputable def realTotalCost (m : MetricsQ) : ℝ :=
  ((m.annual_demand : ℝ) / realEoq m) * (m.ordering_cost : ℝ) +
    (realEoq m / 2) * (m.avg_price : ℝ) * (m.holding_cost : ℝ)

/-- C1 input: a clean row except for a missing date value. -/
def c1In : DF := DF.mk ["Category", "Date", "Qty"] [[Cell.str "A", Cell.null, Cell.num 5]]

/-- C1 output: the null date survives normalization. -/
def c1Out : DF := DF.mk ["SKU", "Date", "Quantity"] [[Cell.str "A", Cell.null, Cell.num 5]]

/-- C1 witness input: a fully valid single-row dataset. -/
def c1wIn : DF := DF.mk ["Category", "Date", "Qty"] [[Cell.str "A", Cell.str "2020-01-01", Cell.num 5]]

/-- C1 witness output. -/
def c1wOut : DF := DF.mk ["SKU", "Date", "Quantity"] [[Cell.str "A", Cell.date 20200101, Cell.num 5]]

/-- C2 input: one parseable and one unparseable date value. -/
def c2In : DF :=
  DF.mk ["Category", "Date", "Qty"]
    [[Cell.str "A", Cell.str "2020-01-01", Cell.num 5],
     [Cell.str "B", Cell.str "garbage", Cell.num 7]]

/-- C2 output the claim predicts: the bad row dropped, the rest kept. -/
def c2ClaimOut : DF := DF.mk ["SKU", "Date", "Quantity"] [[Cell.str "A", Cell.date 20200101, Cell.num 5]]

/-- C2 witness input without any date column. -/
def c2NoDateIn : DF := DF.mk ["Category", "Qty"] [[Cell.str "A", Cell.num 1]]

/-- C2 witness input whose only date value is unparseable. -/
def c2AllBadIn : DF := DF.mk ["Category", "Date"] [[Cell.str "A", Cell.str "nope"]]

/-- C3 input: the Scenario B header with one row (Store 1, Dept 5). -/
def c3In : DF :=
  DF.mk ["Store", "Dept", "Weekly_Sales", "Date"]
    [[Cell.num 1, Cell.num 5, Cell.num 200, Cell.str "2020-01-01"]]

/-- C3 output: `Dept` renamed to `SKU` with its raw value, the synthesized
price 61 (first draw of the seeded generator) and quantity 200 / 61 = 3. -/
def c3Out : DF :=
  DF.mk ["Store", "SKU", "Weekly_Sales", "Date", "Price", "Quantity"]
    [[Cell.num 1, Cell.num 5, Cell.num 200, Cell.date 20200101, Cell.num 61, Cell.num 3]]

/-- C4 input: two rows of the same Dept (hence the same SKU). -/
def c4In : DF :=
  DF.mk ["Store", "Dept", "Weekly_Sales", "Date"]
    [[Cell.num 1, Cell.num 5, Cell.num 200, Cell.str "2020-01-01"],
     [Cell.num 1, Cell.num 5, Cell.num 300, Cell.str "2020-01-02"]]

/-- C4 output: the two rows of the same SKU receive the different per-row
prices 61 and 24. -/
def c4Out : DF :=
  DF.mk ["Store", "SKU", "Weekly_Sales", "Date", "Price", "Quantity"]
    [[Cell.num 1, Cell.num 5, Cell.num 200, Cell.date 20200101, Cell.num 61, Cell.num 3],
     [Cell.num 1, Cell.num 5, Cell.num 300, Cell.date 20200102, Cell.num 24, Cell.num 12]]

/-- C4 witness input for the synthesis stage: canonical columns with
`Weekly_Sales` and no `Price`/`Quantity`/`Total`. -/
def c4wIn : DF :=
  DF.mk ["SKU", "Weekly_Sales", "Date"]
    [[Cell.str "A", Cell.num 200, Cell.date 20200101],
     [Cell.str "A", Cell.num 300, Cell.date 20200102]]

/-- C4 witness output of the synthesis stage: each row got its own price
(61 and then 24) and the derived quantity. -/
def c4wOut : DF :=
  DF.mk ["SKU", "Weekly_Sales", "Date", "Price", "Quantity"]
    [[Cell.str "A", Cell.num 200, Cell.date 20200101, Cell.num 61, Cell.num 3],
     [Cell.str "A", Cell.num 300, Cell.date 20200102, Cell.num 24, Cell.num 12]]

/-- C5 input: a canonical dataset whose only price is 0. -/
def c5In : DF :=
  DF.mk ["SKU", "Date", "Quantity", "Price"]
    [[Cell.str "A", Cell.date 20200101, Cell.num 5, Cell.num 0]]

/-- C5 parameters (defaults of the sidebar). -/
def c5P : Params := Params.mk (1/5) 7 50

/-- C5 resulting metrics bundle: the EOQ denominator collapses to 0 and no
error is reported. -/
def c5M : MetricsQ := MetricsQ.mk 5 0 1825 182500 0 (231/4) (371/4) 50 (1/5)

/-- C6 input: columns already named Store, SKU, Quantity, Price, Date with
valid values. -/
def c6In : DF :=
  DF.mk ["Store", "SKU", "Quantity", "Price", "Date"]
    [[Cell.str "S1", Cell.str "A", Cell.num 5, Cell.num 20, Cell.str "2020-01-01"]]

/-- C7 input: no quantity is derivable from these columns. -/
def c7In : DF := DF.mk ["Category", "Date"] [[Cell.str "A", Cell.str "2020-01-01"]]

/-- C7 output: normalization succeeds, keeping the row, with no `Quantity`
column. -/
def c7Out : DF := DF.mk ["SKU", "Date"] [[Cell.str "A", Cell.date 20200101]]

/-- C7 parameters. -/
def c7P : Params := Params.mk (1/5) 7 50

/-- C8 input: a `Price` column is present (value 1000) together with
`Weekly_Sales`, and no `Quantity`/`Total`. -/
def c8In : DF :=
  DF.mk ["Category", "Price", "Weekly_Sales", "Date"]
    [[Cell.str "A", Cell.num 1000, Cell.num 200, Cell.str "2020-01-01"]]

/-- C8 output: the existing price 1000 was overwritten with the
synthesized 61. -/
def c8Out : DF :=
  DF.mk ["SKU", "Price", "Weekly_Sales", "Date", "Quantity"]
    [[Cell.str "A", Cell.num 61, Cell.num 200, Cell.date 20200101, Cell.num 3]]

/-- C8 witness input: `Price` alongside an existing `Quantity` column. -/
def c8wIn : DF :=
  DF.mk ["SKU", "Price", "Quantity", "Date"]
    [[Cell.str "A", Cell.num 1000, Cell.num 5, Cell.date 20200101]]

/-- C10 input: a canonical dataset with mean daily demand 10 and price 20. -/
def c10In : DF :=
  DF.mk ["SKU", "Date", "Quantity", "Price"]
    [[Cell.str "A", Cell.date 20200101, Cell.num 10, Cell.num 20]]

/-- C10 parameters of Scenario D. -/
def c10P : Params := Params.mk (1/5) 7 50

/-- C10 resulting metrics bundle. -/
def c10M : MetricsQ := MetricsQ.mk 10 20 3650 365000 4 (231/2) (371/2) 50 (1/5)

section

/- The kernel computes `Rat` arithmetic directly; the irreducibility of the
core `Rat` operations is lifted in this section so that `decide` can
evaluate the embedded program on concrete inputs. -/
unseal Rat.add Rat.mul Rat.sub Rat.inv Rat.ofScientific

/-- Auxiliary: `findIdx?` finds nothing iff no element satisfies the
predicate, for any start index. -/
theorem findIdxP_none {α : Type} (p : α → Bool) :
    ∀ (l : List α), (∀ a ∈ l, p a = false) → ∀ i, List.findIdx? p l i = none := by
  intro l
  induction l with
  | nil => intro _ i; rfl
  | cons a l ih =>
    intro h i
    have ha : p a = false := h a (List.mem_cons_self a l)
    simp only [List.findIdx?, ha]
    exact ih (fun b hb => h b (List.mem_cons_of_mem a hb)) (i + 1)

/-- Auxiliary: `findIdx?` finds an index when some element satisfies the
predicate. -/
theorem findIdxP_some {α : Type} (p : α → Bool) :
    ∀ (l : List α), (∃ a ∈ l, p a = true) → ∀ i, ∃ j, List.findIdx? p l i = some j := by
  intro l
  induction l with
  | nil => rintro ⟨a, ha, _⟩; cases ha
  | cons a l ih =>
    rintro ⟨b, hb, hpb⟩ i
    by_cases hpa : p a = true
    · exact ⟨i, by simp only [List.findIdx?, hpa, if_true]⟩
    · rcases List.mem_cons.mp hb with hb | hb
      · exact absurd (hb ▸ hpb) hpa
      · rcases ih ⟨b, hb, hpb⟩ (i + 1) with ⟨j, hj⟩
        exact ⟨j, by simp only [List.findIdx?, hpa, if_false]; exact hj⟩

/-- Auxiliary: an index found by `findIdx?` starting at `i` lies within
`i + length`. -/
theorem findIdxP_bound {α : Type} (p : α → Bool) :
    ∀ (l : List α) (i j : Nat), List.findIdx? p l i = some j → i ≤ j ∧ j < i + l.length := by
  intro l
  induction l with
  | nil => intro i j h; cases h
  | cons a l ih =>
    intro i j h
    by_cases hpa : p a = true
    · simp only [List.findIdx?, hpa, if_true, Option.some.injEq] at h
      subst h
      exact ⟨Nat.le_refl _, by simp [Nat.lt_succ_of_le, Nat.le_add_right]⟩
    · simp only [List.findIdx?, hpa, if_false] at h
      rcases ih (i + 1) j h with ⟨h1, h2⟩
      exact ⟨Nat.le_of_succ_le h1, by simpa [Nat.add_comm, Nat.add_left_comm, Nat.add_assoc] using h2⟩

/-- Auxiliary: successful `mapRowsE` preserves the number of rows. -/
theorem mapRowsE_length (f : Row → Except String Row) :
    ∀ (rows out : List Row), mapRowsE f rows = Except.ok out → out.length = rows.length := by
  intro rows
  induction rows with
  | nil =>
    intro out h
    simp only [mapRowsE, Except.ok.injEq] at h
    simp [← h]
  | cons r rs ih =>
    intro out h
    simp only [mapRowsE] at h
    cases hf : f r with
    | error e => rw [hf] at h; cases h
    | ok r2 =>
      rw [hf] at h
      cases hm : mapRowsE f rs with
      | error e => rw [hm] at h; cases h
      | ok rs2 =>
        rw [hm] at h
        simp only [Except.ok.injEq] at h
        subst h
        simp [ih rs2 hm]

/-- Auxiliary: every output row of a successful `mapRowsE` is the image of
some input row. -/
theorem mapRowsE_mem (f : Row → Except String Row) :
    ∀ (rows out : List Row), mapRowsE f rows = Except.ok out →
      ∀ r2 ∈ out, ∃ r ∈ rows, f r = Except.ok r2 := by
  intro rows
  induction rows with
  | nil =>
    intro out h r2 hr2
    simp only [mapRowsE, Except.ok.injEq] at h
    subst h; cases hr2
  | cons r rs ih =>
    intro out h r2 hr2
    simp only [mapRowsE] at h
    cases hf : f r with
    | error e => rw [hf] at h; cases h
    | ok r1 =>
      rw [hf] at h
      cases hm : mapRowsE f rs with
      | error e => rw [hm] at h; cases h
      | ok rs2 =>
        rw [hm] at h
        simp only [Except.ok.injEq] at h
        subst h
        rcases List.mem_cons.mp hr2 with h2 | h2
        · exact ⟨r, List.mem_cons_self r rs, h2 ▸ hf⟩
        · rcases ih rs2 hm r2 h2 with ⟨r0, hr0, hfr0⟩
          exact ⟨r0, List.mem_cons_of_mem r hr0, hfr0⟩

/-- Auxiliary: `mapRowsE` succeeds pointwise: the `i`-th output row is the
image of the `i`-th input row. -/
theorem mapRowsE_get (f : Row → Except String Row) :
    ∀ (rows out : List Row), mapRowsE f rows = Except.ok out →
      ∀ i, i < rows.length → f (rows.getD i []) = Except.ok (out.getD i []) := by
  intro rows
  induction rows with
  | nil => intro out _ i hi; cases hi
  | cons r rs ih =>
    intro out h i hi
    simp only [mapRowsE] at h
    cases hf : f r with
    | error e => rw [hf] at h; cases h
    | ok r1 =>
      rw [hf] at h
      cases hm : mapRowsE f rs with
      | error e => rw [hm] at h; cases h
      | ok rs2 =>
        rw [hm] at h
        simp only [Except.ok.injEq] at h
        subst h
        cases i with
        | zero => simpa using hf
        | succ i =>
          have : i < rs.length := Nat.lt_of_succ_lt_succ hi
          simpa using ih rs2 hm i this

/-- Auxiliary: `mapRowsE` succeeds when the transformation succeeds on
every row. -/
theorem mapRowsE_ok (f : Row → Except String Row) :
    ∀ (rows : List Row), (∀ r ∈ rows, ∃ r2, f r = Except.ok r2) →
      ∃ out, mapRowsE f rows = Except.ok out := by
  intro rows
  induction rows with
  | nil => intro _; exact ⟨[], rfl⟩
  | cons r rs ih =>
    intro h
    rcases h r (List.mem_cons_self r rs) with ⟨r2, hr2⟩
    rcases ih (fun b hb => h b (List.mem_cons_of_mem r hb)) with ⟨out, hout⟩
    exact ⟨r2 :: out, by simp only [mapRowsE, hr2, hout]⟩

/-- Auxiliary: `mapRowsE` raises when the transformation raises on some
row and never raises a different message. -/
theorem mapRowsE_err (f : Row → Except String Row) (em : String) :
    ∀ (rows : List Row), (∀ r ∈ rows, f r = Except.error em ∨ ∃ r2, f r = Except.ok r2) →
      (∃ r ∈ rows, f r = Except.error em) → mapRowsE f rows = Except.error em := by
  intro rows
  induction rows with
  | nil => rintro _ ⟨r, hr, _⟩; cases hr
  | cons r rs ih =>
    rintro hall ⟨r0, hr0, hfr0⟩
    rcases hall r (List.mem_cons_self r rs) with hr | ⟨r2, hr2⟩
    · simp only [mapRowsE, hr]
    · rcases List.mem_cons.mp hr0 with h0 | h0
      · rw [← h0, hfr0] at hr2; simp at hr2
      · have := ih (fun b hb => hall b (List.mem_cons_of_mem r hb)) ⟨r0, h0, hfr0⟩
        simp only [mapRowsE, hr2, this]

/-- Auxiliary: successful `filterRowsE` keeps exactly rows on which the
predicate held. -/
theorem filterRowsE_mem (p : Row → Except String Bool) :
    ∀ (rows out : List Row), filterRowsE p rows = Except.ok out →
      ∀ r ∈ out, r ∈ rows ∧ p r = Except.ok true := by
  intro rows
  induction rows with
  | nil =>
    intro out h r hr
    simp only [filterRowsE, Except.ok.injEq] at h
    subst h; cases hr
  | cons r rs ih =>
    intro out h r2 hr2
    simp only [filterRowsE] at h
    cases hp : p r with
    | error e => rw [hp] at h; cases h
    | ok b =>
      rw [hp] at h
      cases hm : filterRowsE p rs with
      | error e => rw [hm] at h; cases h
      | ok rs2 =>
        rw [hm] at h
        simp only [Except.ok.injEq] at h
        subst h
        cases b with
        | true =>
          rcases List.mem_cons.mp hr2 with h2 | h2
          · exact ⟨h2 ▸ List.mem_cons_self r rs, h2 ▸ hp⟩
          · rcases ih rs2 hm r2 h2 with ⟨hmem, hpr⟩
            exact ⟨List.mem_cons_of_mem r hmem, hpr⟩
        | false =>
          rcases ih rs2 hm r2 (by simpa using hr2) with ⟨hmem, hpr⟩
          exact ⟨List.mem_cons_of_mem r hmem, hpr⟩

/-- Auxiliary: `filterRowsE` succeeds when the predicate succeeds on every
row. -/
theorem filterRowsE_ok (p : Row → Except String Bool) :
    ∀ (rows : List Row), (∀ r ∈ rows, ∃ b, p r = Except.ok b) →
      ∃ out, filterRowsE p rows = Except.ok out := by
  intro rows
  induction rows with
  | nil => intro _; exact ⟨[], rfl⟩
  | cons r rs ih =>
    intro h
    rcases h r (List.mem_cons_self r rs) with ⟨b, hb⟩
    rcases ih (fun x hx => h x (List.mem_cons_of_mem r hx)) with ⟨out, hout⟩
    exact ⟨if b then r :: out else out, by simp only [filterRowsE, hb, hout]⟩

/-- Auxiliary: the bounded draw returns exactly the requested number of
values. -/
theorem collectR_length (mask lo mx : Nat) :
    ∀ (outs : List Nat) (n : Nat), ((collectR mask lo mx outs n).1).length = n := by
  intro outs
  induction outs with
  | nil => intro n; cases n <;> simp [collectR]
  | cons o rest ih =>
    intro n
    cases n with
    | zero => simp [collectR]
    | succ n =>
      by_cases h : o &&& mask ≤ mx
      · simp [collectR, h, ih n]
      · simp [collectR, h, ih (n + 1)]

/-- Auxiliary: every value of the bounded draw lies in `[lo, lo + mx]`. -/
theorem collectR_range (mask lo mx : Nat) :
    ∀ (outs : List Nat) (n : Nat), ∀ v ∈ (collectR mask lo mx outs n).1,
      (lo : ℚ) ≤ v ∧ v ≤ (lo : ℚ) + (mx : ℚ) := by
  intro outs
  induction outs with
  | nil =>
    intro n v hv
    cases n with
    | zero => cases hv
    | succ n =>
      simp only [collectR, List.mem_replicate] at hv
      rw [hv.2]
      exact ⟨le_refl _, le_add_of_nonneg_right (by positivity)⟩
  | cons o rest ih =>
    intro n v hv
    cases n with
    | zero => cases hv
    | succ n =>
      by_cases h : o &&& mask ≤ mx
      · simp only [collectR, h, if_true] at hv
        rcases List.mem_cons.mp hv with hv | hv
        · subst hv
          constructor
          · exact_mod_cast Nat.le_add_right lo (o &&& mask)
          · have : ((lo + (o &&& mask) : Nat) : ℚ) ≤ ((lo + mx : Nat) : ℚ) := by
              exact_mod_cast Nat.add_le_add_left h lo
            simpa using this
        · exact ih n v hv
      · simp only [collectR, h, if_false] at hv
        exact ih (n + 1) v hv

/-- Auxiliary: synthesized prices are drawn in the interval [10, 100). -/
theorem npRandint42_range (n : Nat) :
    ∀ v ∈ (npRandint42 n).1, (10 : ℚ) ≤ v ∧ v < 100 := by
  intro v hv
  rcases collectR_range 127 10 89 (npRawOut 42 (16 * n + 16)) n v hv with ⟨h1, h2⟩
  refine ⟨by exact_mod_cast h1, lt_of_le_of_lt h2 (by norm_num)⟩

/-- Auxiliary: the number of synthesized prices matches the number of
rows. -/
theorem npRandint42_length (n : Nat) : ((npRandint42 n).1).length = n :=
  collectR_length 127 10 89 _ n

/-- Value component of the quantity-resolution stage does not depend on
the incoming generator state: the adapter re-seeds with 42 before every
draw. -/
theorem quantityStageRng_fst (g1 g2 : RngState) (df : DF) :
    (quantityStageRng g1 df).1 = (quantityStageRng g2 df).1 := by
  simp only [quantityStageRng]
  split_ifs <;> rfl

/-- Auxiliary: the threaded stage agrees with its pure reading. -/
theorem quantityStageRng_eq (g : RngState) (df : DF) :
    (quantityStageRng g df).1 = quantityStage df :=
  quantityStageRng_fst g [] df

/-- Auxiliary: inversion of a successful `Except.map`. -/
theorem exceptMap_ok {α β : Type} (f : α → β) (x : Except String α) (y : β)
    (h : Except.map f x = Except.ok y) : ∃ a, x = Except.ok a ∧ y = f a := by
  cases x with
  | error e => simp [Except.map] at h
  | ok a =>
    refine ⟨a, rfl, ?_⟩
    simpa [Except.map, eq_comm] using h

/-- Auxiliary: the columns after quantity resolution are the input columns,
possibly extended by a derived `Quantity` and a synthesized `Price`. -/
theorem quantityStage_cols (df df2 : DF) (h : quantityStage df = Except.ok df2) :
    df2.cols = df.cols ∨ df2.cols = df.cols ++ ["Quantity"] ∨
      df2.cols = df.cols ++ ["Price", "Quantity"] := by
  simp only [quantityStage, quantityStageRng] at h
  split_ifs at h with h1 h2 h3
  · simp only [Except.ok.injEq] at h
    exact Or.inl (by rw [← h])
  · rcases exceptMap_ok _ _ _ h with ⟨rows2, _, hdf⟩
    exact Or.inr (Or.inl (by rw [hdf]))
  · rcases hp : df.cols.findIdx? (fun c => c = "Price") with _ | pIdx
    · rw [hp] at h
      rcases exceptMap_ok _ _ _ h with ⟨rows3, _, hdf⟩
      refine Or.inr (Or.inr ?_)
      rw [hdf]
      simp
    · rw [hp] at h
      rcases exceptMap_ok _ _ _ h with ⟨rows3, _, hdf⟩
      exact Or.inr (Or.inl (by rw [hdf]))
  · simp only [Except.ok.injEq] at h
    exact Or.inl (by rw [← h])

/-- Auxiliary: quantity resolution preserves column membership. -/
theorem quantityStage_cols_sub (df df2 : DF) (h : quantityStage df = Except.ok df2)
    (c : String) (hc : c ∈ df.cols) : c ∈ df2.cols := by
  rcases quantityStage_cols df df2 h with h2 | h2 | h2 <;> rw [h2] <;>
    simp [List.mem_append, hc]

/-- Auxiliary: if the result of quantity resolution still has no
`Quantity` column, the stage did nothing: no branch fired. -/
theorem quantityStage_skip (df df2 : DF) (h : quantityStage df = Except.ok df2)
    (hq : df2.cols.contains "Quantity" = false) :
    df2 = df ∧ df.cols.contains "Quantity" = false ∧
      (df.cols.contains "Total" && df.cols.contains "Price") = false ∧
      df.cols.contains "Weekly_Sales" = false := by
  have hnotmem : ¬ "Quantity" ∈ df2.cols := by
    intro hmem
    rw [(by simpa using hmem : df2.cols.contains "Quantity" = true)] at hq
    cases hq
  simp only [quantityStage, quantityStageRng] at h
  split_ifs at h with h1 h2 h3
  · simp only [Except.ok.injEq] at h
    subst h
    rw [h1] at hq
    cases hq
  · rcases exceptMap_ok _ _ _ h with ⟨rows2, _, hdf⟩
    exact absurd (by rw [hdf]; simp : "Quantity" ∈ df2.cols) hnotmem
  · exfalso
    apply hnotmem
    rcases hp : df.cols.findIdx? (fun c => c = "Price") with _ | pIdx
    · rw [hp] at h
      rcases exceptMap_ok _ _ _ h with ⟨rows3, _, hdf⟩
      rw [hdf]; simp
    · rw [hp] at h
      rcases exceptMap_ok _ _ _ h with ⟨rows3, _, hdf⟩
      rw [hdf]; simp
  · simp only [Except.ok.injEq] at h
    subst h
    refine ⟨rfl, ?_, ?_, ?_⟩
    · simpa using hq
    · simpa using h2
    · simpa using h3

/-- Auxiliary: row filtering never changes the columns. -/
theorem filterStage_cols (df df3 : DF) (h : filterStage df = Except.ok df3) :
    df3.cols = df.cols := by
  simp only [filterStage] at h
  split_ifs at h with h1
  · rcases exceptMap_ok _ _ _ h with ⟨rows2, _, hdf⟩
    rw [hdf]
  · simp only [Except.ok.injEq] at h
    rw [← h]

/-- Auxiliary: filtering without a `Quantity` column does nothing. -/
theorem filterStage_skip (df : DF) (h : df.cols.contains "Quantity" = false) :
    filterStage df = Except.ok df := by
  have hnot : ¬ "Quantity" ∈ df.cols := by simpa using h
  simp [filterStage, hnot]

/-- Auxiliary: a cell passing the positivity test is a positive number. -/
theorem gtZeroCell_true (c : Cell) (h : gtZeroCell c = Except.ok true) :
    ∃ q : ℚ, c = Cell.num q ∧ 0 < q := by
  cases c with
  | num q =>
    refine ⟨q, rfl, ?_⟩
    simpa [gtZeroCell] using h
  | str s => cases h
  | null => simp [gtZeroCell] at h
  | date d => cases h

/-- Auxiliary: survivors of row filtering with a `Quantity` column are
input rows with a positive numeric quantity cell. -/
theorem filterStage_pos (df df3 : DF) (h : filterStage df = Except.ok df3)
    (h1 : df.cols.contains "Quantity" = true) :
    ∀ r ∈ df3.rows, r ∈ df.rows ∧
      ∃ q : ℚ, getCellD r ((df.cols.findIdx? (fun c => c = "Quantity")).getD 0) = Cell.num q ∧ 0 < q := by
  intro r hr
  simp only [filterStage, h1, if_true] at h
  rcases exceptMap_ok _ _ _ h with ⟨rows2, hf, hdf⟩
  rw [hdf] at hr
  rcases filterRowsE_mem _ _ _ hf r hr with ⟨hmem, hpr⟩
  exact ⟨hmem, gtZeroCell_true _ hpr⟩

/-- Auxiliary: `to_datetime` on a cell either parses or raises its parse
error. -/
theorem toDatetimeCell_cases (c : Cell) :
    (∃ c2, toDatetimeCell c = Except.ok c2) ∨ toDatetimeCell c = Except.error "to_datetime" := by
  cases c with
  | str s =>
    cases hp : parseIso s with
    | some d => exact Or.inl ⟨Cell.date d, by simp [toDatetimeCell, hp]⟩
    | none => exact Or.inr (by simp [toDatetimeCell, hp])
  | num q => exact Or.inl ⟨Cell.date q, rfl⟩
  | null => exact Or.inl ⟨Cell.null, rfl⟩
  | date d => exact Or.inl ⟨Cell.date d, rfl⟩

/-- Auxiliary: inversion of a successful normalization into its stages. -/
theorem norm_ok_inv (df df3 : DF) (h : load_and_process_data df = NormResult.ok df3) :
    ∃ di rows1 df2,
      (resolveCols df.cols).findIdx? (fun c => c = "Date") = some di ∧
      mapRowsE (dateXform di) df.rows = Except.ok rows1 ∧
      quantityStage (DF.mk (resolveCols df.cols) rows1) = Except.ok df2 ∧
      filterStage df2 = Except.ok df3 ∧
      df3.cols.contains "SKU" = true := by
  simp only [load_and_process_data, normalizeRng] at h
  cases hd : (resolveCols df.cols).findIdx? (fun c => c = "Date") with
  | none => rw [hd] at h; cases h
  | some di =>
    rw [hd] at h
    simp only at h
    cases hm : mapRowsE (dateXform di) df.rows with
    | error e =>
      rw [hm] at h
      cases h
    | ok rows1 =>
      rw [hm] at h
      simp only at h
      rw [quantityStageRng_eq [] (DF.mk (resolveCols df.cols) rows1)] at h
      cases hq : quantityStage (DF.mk (resolveCols df.cols) rows1) with
      | error e => rw [hq] at h; cases h
      | ok df2 =>
        rw [hq] at h
        simp only at h
        cases hf : filterStage df2 with
        | error e => rw [hf] at h; cases h
        | ok df3x =>
          rw [hf] at h
          simp only at h
          split_ifs at h with hsku
          · simp only [NormResult.ok.injEq] at h
            subst h
            exact ⟨di, rows1, df2, rfl, hm, hq, hf, hsku⟩

/-- Auxiliary: a found index points at a satisfying element. -/
theorem findIdxP_mem {α : Type} (p : α → Bool) :
    ∀ (l : List α) (i j : Nat), List.findIdx? p l i = some j → ∃ a ∈ l, p a = true := by
  intro l
  induction l with
  | nil => intro i j h; cases h
  | cons a l ih =>
    intro i j h
    by_cases hpa : p a = true
    · exact ⟨a, List.mem_cons_self a l, hpa⟩
    · simp only [List.findIdx?, hpa, if_false] at h
      rcases ih (i + 1) j h with ⟨b, hb, hpb⟩
      exact ⟨b, List.mem_cons_of_mem a hb, hpb⟩

/-- Auxiliary: a column found by name is a member of the header. -/
theorem findIdxS_mem (l : List String) (c : String) (j : Nat)
    (h : List.findIdx? (fun x => x = c) l = some j) : c ∈ l := by
  rcases findIdxP_mem _ l 0 j h with ⟨a, ha, hpa⟩
  have hac : a = c := by simpa using hpa
  rwa [← hac]

/-- Auxiliary: a member column is found by name. -/
theorem findIdxS_some (l : List String) (c : String) (h : c ∈ l) :
    ∃ j, List.findIdx? (fun x => x = c) l = some j :=
  findIdxP_some _ l ⟨c, h, by simp⟩ 0

/-- Auxiliary: an absent column is not found. -/
theorem findIdxS_none (l : List String) (c : String) (h : ¬ c ∈ l) :
    List.findIdx? (fun x => x = c) l = none := by
  apply findIdxP_none
  intro a ha
  simp only [decide_eq_false_iff_not]
  intro hac
  subst hac
  exact h ha

/-- Auxiliary: a found column index is within the header length. -/
theorem findIdxS_lt (l : List String) (c : String) (j : Nat)
    (h : List.findIdx? (fun x => x = c) l = some j) : j < l.length := by
  have := (findIdxP_bound _ l 0 j h).2
  simpa using this

/-- Auxiliary: reading an appended row below the original length. -/
theorem getCellD_append_lt (r : Row) (c : Cell) (i : Nat) (h : i < r.length) :
    getCellD (r ++ [c]) i = getCellD r i := by
  simp [getCellD, List.getD, List.getElem?_append, h]

/-- Auxiliary: reading the appended cell of a row. -/
theorem getCellD_append_self (r : Row) (c : Cell) :
    getCellD (r ++ [c]) r.length = c := by
  simp [getCellD, List.getD, List.getElem?_append_right (Nat.le_refl _)]

/-- Auxiliary: reading an updated row away from the updated index. -/
theorem getCellD_set_ne (r : Row) (i j : Nat) (h : i ≠ j) (c : Cell) :
    getCellD (r.set i c) j = getCellD r j := by
  simp [getCellD, List.getD, List.getElem?_set_ne h]

/-- Auxiliary: reading the updated cell of a row. -/
theorem getCellD_set_lt (r : Row) (i : Nat) (h : i < r.length) (c : Cell) :
    getCellD (r.set i c) i = c := by
  simp [getCellD, List.getD, List.getElem?_set_eq_of_lt c h]

/-- Auxiliary: membership inversion for `zipWith`. -/
theorem zipWith_mem {α β γ : Type} (g : α → β → γ) :
    ∀ (as : List α) (bs : List β), ∀ x ∈ List.zipWith g as bs,
      ∃ a ∈ as, ∃ b ∈ bs, x = g a b := by
  intro as
  induction as with
  | nil => intro bs x hx; cases hx
  | cons a as ih =>
    intro bs x hx
    cases bs with
    | nil => cases hx
    | cons b bs =>
      rcases List.mem_cons.mp hx with h | h
      · exact ⟨a, List.mem_cons_self a as, b, List.mem_cons_self b bs, h⟩
      · rcases ih bs x h with ⟨a2, ha2, b2, hb2, hx2⟩
        exact ⟨a2, List.mem_cons_of_mem a ha2, b2, List.mem_cons_of_mem b hb2, hx2⟩

/-- Auxiliary: pointwise description of `zipWith`. -/
theorem zipWith_getD {α β γ : Type} (g : α → β → γ) (da : α) (db : β) (dc : γ) :
    ∀ (as : List α) (bs : List β) (i : Nat), i < as.length → i < bs.length →
      (List.zipWith g as bs).getD i dc = g (as.getD i da) (bs.getD i db) := by
  intro as
  induction as with
  | nil => intro bs i h1 _; cases h1
  | cons a as ih =>
    intro bs i h1 h2
    cases bs with
    | nil => cases h2
    | cons b bs =>
      cases i with
      | zero => rfl
      | succ i =>
        simpa using ih bs i (Nat.lt_of_succ_lt_succ h1) (Nat.lt_of_succ_lt_succ h2)

/-- Auxiliary: a list element read inside bounds is a member. -/
theorem getD_mem_of_lt {α : Type} (l : List α) (i : Nat) (d : α) (h : i < l.length) :
    l.getD i d ∈ l := by
  rw [List.getD_eq_getElem l d h]
  exact List.getElem_mem h

/-- Auxiliary: an index found in the left part of an appended list is the
index found in the whole. -/
theorem findIdxP_append_left {α : Type} (p : α → Bool) :
    ∀ (l l2 : List α) (i j : Nat), List.findIdx? p l i = some j →
      List.findIdx? p (l ++ l2) i = some j := by
  intro l
  induction l with
  | nil => intro l2 i j h; cases h
  | cons a l ih =>
    intro l2 i j h
    by_cases hpa : p a = true
    · simp only [List.findIdx?, hpa, if_true] at h ⊢
      exact h
    · simp only [List.findIdx?, hpa, if_false] at h ⊢
      exact ih l2 (i + 1) j h

/-- Auxiliary: searching an appended list when the left part has no match
continues in the right part with a shifted start index. -/
theorem findIdxP_append_right {α : Type} (p : α → Bool) :
    ∀ (l l2 : List α) (i : Nat), List.findIdx? p l i = none →
      List.findIdx? p (l ++ l2) i = List.findIdx? p l2 (i + l.length) := by
  intro l
  induction l with
  | nil => intro l2 i _; simp
  | cons a l ih =>
    intro l2 i h
    by_cases hpa : p a = true
    · simp only [List.findIdx?, hpa, if_true] at h
      cases h
    · simp only [List.findIdx?, hpa, Bool.false_eq_true, if_false] at h
      simp only [List.cons_append, List.findIdx?, hpa, Bool.false_eq_true, if_false,
        List.append_eq]
      rw [ih l2 (i + 1) h]
      congr 1
      simp only [List.length_cons]
      omega

/-- Auxiliary: inversion of a successful per-row date parse. -/
theorem dateXform_ok (di : Nat) (r r1 : Row) (h : dateXform di r = Except.ok r1) :
    ∃ c, toDatetimeCell (getCellD r di) = Except.ok c ∧ r1 = r.set di c :=
  exceptMap_ok _ _ _ h

/-- Auxiliary: inversion of a successful per-row quantity derivation. -/
theorem qXform_ok (ni di : Nat) (r r2 : Row) (h : qXform ni di r = Except.ok r2) :
    ∃ c, divCast (getCellD r ni) (getCellD r di) = Except.ok c ∧ r2 = r ++ [c] :=
  exceptMap_ok _ _ _ h

/-- Auxiliary: inversion of a successful cast division. -/
theorem divCast_ok (t p c : Cell) (h : divCast t p = Except.ok c) :
    ∃ a b : ℚ, t = Cell.num a ∧ p = Cell.num b ∧ ¬ b = 0 ∧
      c = Cell.num ((ratTrunc (a / b) : ℤ) : ℚ) := by
  cases t with
  | num a =>
    cases p with
    | num b =>
      simp only [divCast] at h
      split_ifs at h with hb
      exact ⟨a, b, rfl, rfl, hb, by simpa [eq_comm] using h⟩
    | str s => cases h
    | null => cases h
    | date d => cases h
  | str s => cases h
  | null => cases h
  | date d => cases h

/-- Auxiliary: cast division of numeric cells with nonzero divisor. -/
theorem divCast_num (a b : ℚ) (hb : ¬ b = 0) :
    divCast (Cell.num a) (Cell.num b) = Except.ok (Cell.num ((ratTrunc (a / b) : ℤ) : ℚ)) := by
  simp [divCast, hb]

/-- Auxiliary: branch equation of quantity resolution when `Quantity` is
already present. -/
theorem quantityStage_quantity (df : DF) (h1 : df.cols.contains "Quantity" = true) :
    quantityStage df = Except.ok df := by
  have h1m : "Quantity" ∈ df.cols := by simpa using h1
  simp [quantityStage, quantityStageRng, h1m]

/-- Auxiliary: branch equation of quantity resolution from
`Total / Price`. -/
theorem quantityStage_total (df : DF) (h1 : df.cols.contains "Quantity" = false)
    (h2 : (df.cols.contains "Total" && df.cols.contains "Price") = true) :
    quantityStage df =
      (deriveQuantityRows ((df.cols.findIdx? (fun c => c = "Total")).getD 0)
        ((df.cols.findIdx? (fun c => c = "Price")).getD 0) df.rows).map
        (fun rows2 => DF.mk (df.cols ++ ["Quantity"]) rows2) := by
  have h1m : ¬ "Quantity" ∈ df.cols := by simpa using h1
  have h2m : "Total" ∈ df.cols ∧ "Price" ∈ df.cols := by simpa using h2
  simp [quantityStage, quantityStageRng, h1m, h2m]

/-- Auxiliary: branch equation of quantity resolution when nothing can be
derived. -/
theorem quantityStage_none (df : DF) (h1 : df.cols.contains "Quantity" = false)
    (h2 : (df.cols.contains "Total" && df.cols.contains "Price") = false)
    (h3 : df.cols.contains "Weekly_Sales" = false) :
    quantityStage df = Except.ok df := by
  have h1m : ¬ "Quantity" ∈ df.cols := by simpa using h1
  have h2m : ¬ ("Total" ∈ df.cols ∧ "Price" ∈ df.cols) := by
    rintro ⟨ht, hpr⟩
    have hb : (df.cols.contains "Total" && df.cols.contains "Price") = true := by
      simp [ht, hpr]
    rw [hb] at h2
    cases h2
  have h3m : ¬ "Weekly_Sales" ∈ df.cols := by simpa using h3
  simp [quantityStage, quantityStageRng, h1m, h2m, h3m]

/-- Auxiliary: branch equation of the `Weekly_Sales` price synthesis when
no `Price` column exists (the drawn prices are appended). -/
theorem quantityStage_weekly_noPrice (df : DF) (h1 : df.cols.contains "Quantity" = false)
    (h2 : (df.cols.contains "Total" && df.cols.contains "Price") = false)
    (h3 : df.cols.contains "Weekly_Sales" = true)
    (hp : df.cols.findIdx? (fun c => c = "Price") = none) :
    quantityStage df =
      (deriveQuantityRows (((df.cols ++ ["Price"]).findIdx? (fun c => c = "Weekly_Sales")).getD 0)
        (((df.cols ++ ["Price"]).findIdx? (fun c => c = "Price")).getD 0)
        (List.zipWith (fun r p => r ++ [Cell.num p]) df.rows (npRandint42 df.rows.length).1)).map
        (fun rows3 => DF.mk ((df.cols ++ ["Price"]) ++ ["Quantity"]) rows3) := by
  have h1m : ¬ "Quantity" ∈ df.cols := by simpa using h1
  have h2m : ¬ ("Total" ∈ df.cols ∧ "Price" ∈ df.cols) := by
    rintro ⟨ht, hpr⟩
    have hb : (df.cols.contains "Total" && df.cols.contains "Price") = true := by
      simp [ht, hpr]
    rw [hb] at h2
    cases h2
  have h3m : "Weekly_Sales" ∈ df.cols := by simpa using h3
  simp [quantityStage, quantityStageRng, h1m, h2m, h3m, hp]

/-- Auxiliary: branch equation of the `Weekly_Sales` price synthesis when a
`Price` column exists (it is overwritten in place). -/
theorem quantityStage_weekly_price (df : DF) (h1 : df.cols.contains "Quantity" = false)
    (h2 : (df.cols.contains "Total" && df.cols.contains "Price") = false)
    (h3 : df.cols.contains "Weekly_Sales" = true) (pIdx : Nat)
    (hp : df.cols.findIdx? (fun c => c = "Price") = some pIdx) :
    quantityStage df =
      (deriveQuantityRows ((df.cols.findIdx? (fun c => c = "Weekly_Sales")).getD 0)
        ((df.cols.findIdx? (fun c => c = "Price")).getD 0)
        (List.zipWith (fun r p => r.set pIdx (Cell.num p)) df.rows (npRandint42 df.rows.length).1)).map
        (fun rows3 => DF.mk (df.cols ++ ["Quantity"]) rows3) := by
  have h1m : ¬ "Quantity" ∈ df.cols := by simpa using h1
  have h2m : ¬ ("Total" ∈ df.cols ∧ "Price" ∈ df.cols) := by
    rintro ⟨ht, hpr⟩
    have hb : (df.cols.contains "Total" && df.cols.contains "Price") = true := by
      simp [ht, hpr]
    rw [hb] at h2
    cases h2
  have h3m : "Weekly_Sales" ∈ df.cols := by simpa using h3
  simp [quantityStage, quantityStageRng, h1m, h2m, h3m, hp]

/-- C1 (counterexample): the normalizer accepts a dataset whose single
returned record has a null date (`pd.to_datetime` turns the missing value
into `NaT` and no filtering removes it), refuting the claimed invariant
that every returned record has a non-null date. -/
theorem c1_counterexample :
    load_and_process_data c1In = NormResult.ok c1Out ∧
      getCellD (c1Out.rows.getD 0 []) 1 = Cell.null := by
  exact ⟨by decide, by decide⟩

/-- C2 (counterexample): one unparseable date value among parseable ones
aborts the whole normalization with the uncaught parse exception; the row
is not dropped individually and no dataset is returned, refuting the
claimed row-level recovery. -/
theorem c2_counterexample :
    load_and_process_data c2In = NormResult.exn "to_datetime" ∧
      load_and_process_data c2In ≠ NormResult.ok c2ClaimOut := by
  exact ⟨by decide, by decide⟩

/-- C3 (counterexample): for the Scenario B input the returned SKU value is
the raw `Dept` value (the alias table renames `Dept` to `SKU`), not the
composite string `"Store 1 - Dept 5"` the claim predicts. -/
theorem c3_counterexample :
    load_and_process_data c3In = NormResult.ok c3Out ∧
      getCellD (c3Out.rows.getD 0 []) 1 = Cell.num 5 ∧
      getCellD (c3Out.rows.getD 0 []) 1 ≠ Cell.str "Store 1 - Dept 5" := by
  exact ⟨by decide, by decide, by decide⟩

/-- C4 (counterexample): two rows sharing the same SKU receive the two
different synthesized prices 61 and 24 — prices are drawn per row
position, not per distinct SKU, refuting the claimed per-SKU constancy. -/
theorem c4_counterexample :
    load_and_process_data c4In = NormResult.ok c4Out ∧
      getCellD (c4Out.rows.getD 0 []) 1 = getCellD (c4Out.rows.getD 1 []) 1 ∧
      getCellD (c4Out.rows.getD 0 []) 4 = Cell.num 61 ∧
      getCellD (c4Out.rows.getD 1 []) 4 = Cell.num 24 := by
  exact ⟨by decide, by decide, by decide, by decide⟩

/-- C5 (counterexample): with an average price of 0 the calculator still
returns an ordinary metrics bundle whose EOQ denominator is 0 — no
`InvalidParameterError` or any other error value is reported. -/
theorem c5_counterexample :
    computeMetrics c5In (Cell.str "A") c5P = CalcResult.metrics c5M ∧
      c5M.eoq_den = 0 ∧ c5M.avg_price * c5P.holding_cost = 0 := by
  exact ⟨by decide, by decide, by decide⟩

/-- C6 (counterexample): an input whose columns are already
`Store, SKU, Quantity, Price, Date` with valid values is rejected with the
no-product/department error (header canonicalization turns `SKU` into
`Sku`), instead of being returned unchanged. -/
theorem c6_counterexample :
    load_and_process_data c6In = NormResult.noSkuCol ∧
      load_and_process_data c6In ≠ NormResult.ok c6In := by
  exact ⟨by decide, by decide⟩

/-- C7 (counterexample): when no quantity is derivable, normalization
succeeds but keeps the row (no filtering to zero rows happens), and the
calculator then raises an uncaught KeyError on the missing `Quantity`
column instead of reporting insufficient data. -/
theorem c7_counterexample :
    load_and_process_data c7In = NormResult.ok c7Out ∧ c7Out.rows.length = 1 ∧
      computeMetrics c7Out (Cell.str "A") c7P = CalcResult.keyErr "Quantity" := by
  exact ⟨by decide, by decide, by decide⟩

/-- C8 (counterexample): an input with an existing `Price` column (value
1000) and a `Weekly_Sales` column but no `Quantity`/`Total` has its price
overwritten by the synthesized value 61, refuting the claim that existing
prices are never mutated. -/
theorem c8_counterexample :
    getCellD (c8In.rows.getD 0 []) 1 = Cell.num 1000 ∧
      load_and_process_data c8In = NormResult.ok c8Out ∧
      getCellD (c8Out.rows.getD 0 []) 1 = Cell.num 61 := by
  exact ⟨by decide, by decide, by decide⟩

/-- C9: normalization is deterministic across runs: its outcome is
independent of the incoming global generator state, because the adapter
re-seeds with the fixed seed 42 before any draw; two runs on the same
parsed input therefore yield the identical canonical output, synthesized
prices included. -/
theorem c9_deterministic (g1 g2 : RngState) (df : DF) :
    (normalizeRng g1 df).1 = (normalizeRng g2 df).1 := by
  simp only [normalizeRng]
  cases hd : (resolveCols df.cols).findIdx? (fun c => c = "Date") with
  | none => rfl
  | some di =>
    dsimp only
    cases hm : mapRowsE (dateXform di) df.rows with
    | error e => rfl
    | ok rows1 =>
      dsimp only
      rw [quantityStageRng_eq g1 (DF.mk (resolveCols df.cols) rows1),
          quantityStageRng_eq g2 (DF.mk (resolveCols df.cols) rows1)]
      cases hq : quantityStage (DF.mk (resolveCols df.cols) rows1) with
      | error e => rfl
      | ok df2 =>
        dsimp only
        cases hf : filterStage df2 with
        | error e => rfl
        | ok df3 => rfl

/-- C1 (amended): every dataset the normalizer accepts has `Date` and
`SKU` columns, and whenever a `Quantity` column exists every returned
record carries a positive numeric quantity; null dates and null SKU
values, however, are not filtered out. -/
theorem c1_invariant (df df3 : DF) (h : load_and_process_data df = NormResult.ok df3) :
    df3.cols.contains "Date" = true ∧ df3.cols.contains "SKU" = true ∧
      (df3.cols.contains "Quantity" = true →
        ∀ r ∈ df3.rows, ∃ q : ℚ,
          getCellD r ((df3.cols.findIdx? (fun c => c = "Quantity")).getD 0) = Cell.num q ∧ 0 < q) := by
  rcases norm_ok_inv df df3 h with ⟨di, rows1, df2, hdi, hm, hq, hf, hsku⟩
  have hcols3 : df3.cols = df2.cols := filterStage_cols df2 df3 hf
  have hdate1 : "Date" ∈ resolveCols df.cols := findIdxS_mem _ _ _ hdi
  have hdate2 : "Date" ∈ df2.cols := quantityStage_cols_sub _ _ hq "Date" hdate1
  refine ⟨by rw [hcols3]; simpa using hdate2, hsku, ?_⟩
  intro hq3 r hr
  have hq2 : df2.cols.contains "Quantity" = true := by rw [← hcols3]; exact hq3
  rcases filterStage_pos df2 df3 hf hq2 r hr with ⟨_, q, hcell, hpos⟩
  refine ⟨q, ?_, hpos⟩
  rw [hcols3]
  exact hcell

/-- C1 witness: the amended invariant at a concrete accepted dataset. -/
theorem c1_witness :
    load_and_process_data c1wIn = NormResult.ok c1wOut ∧
      (c1wOut.cols.contains "Date" = true ∧ c1wOut.cols.contains "SKU" = true ∧
        (c1wOut.cols.contains "Quantity" = true →
          ∀ r ∈ c1wOut.rows, ∃ q : ℚ,
            getCellD r ((c1wOut.cols.findIdx? (fun c => c = "Quantity")).getD 0) = Cell.num q ∧ 0 < q)) :=
  ⟨by decide, c1_invariant c1wIn c1wOut (by decide)⟩

/-- C2 (amended): the no-date-column rejection occurs exactly when no
`Date` column exists after aliasing; when a `Date` column exists, a single
unparseable date value aborts the whole normalization with the uncaught
parse exception — rows are never dropped individually. -/
theorem c2_date_errors :
    (∀ df : DF, (resolveCols df.cols).findIdx? (fun c => c = "Date") = none →
      load_and_process_data df = NormResult.noDateCol) ∧
    (∀ (df : DF) (di : Nat), (resolveCols df.cols).findIdx? (fun c => c = "Date") = some di →
      (∃ r ∈ df.rows, toDatetimeCell (getCellD r di) = Except.error "to_datetime") →
      load_and_process_data df = NormResult.exn "to_datetime") ∧
    (∀ (df : DF) (di : Nat), (resolveCols df.cols).findIdx? (fun c => c = "Date") = some di →
      load_and_process_data df ≠ NormResult.noDateCol) := by
  refine ⟨?_, ?_, ?_⟩
  · intro df h
    simp only [load_and_process_data, normalizeRng, h]
  · intro df di hdi hbad
    have herr : mapRowsE (dateXform di) df.rows = Except.error "to_datetime" := by
      apply mapRowsE_err
      · intro r hr
        rcases toDatetimeCell_cases (getCellD r di) with ⟨c2, hc2⟩ | hc2
        · exact Or.inr ⟨r.set di c2, by simp [dateXform, hc2, Except.map]⟩
        · exact Or.inl (by simp [dateXform, hc2, Except.map])
      · rcases hbad with ⟨r, hr, hrr⟩
        exact ⟨r, hr, by simp [dateXform, hrr, Except.map]⟩
    simp only [load_and_process_data, normalizeRng, hdi, herr]
  · intro df di hdi hcon
    simp only [load_and_process_data, normalizeRng, hdi] at hcon
    cases hm : mapRowsE (dateXform di) df.rows with
    | error e => rw [hm] at hcon; simp at hcon
    | ok rows1 =>
      rw [hm] at hcon
      simp only at hcon
      rw [quantityStageRng_eq [] (DF.mk (resolveCols df.cols) rows1)] at hcon
      cases hq : quantityStage (DF.mk (resolveCols df.cols) rows1) with
      | error e => rw [hq] at hcon; simp at hcon
      | ok df2 =>
        rw [hq] at hcon
        simp only at hcon
        cases hf : filterStage df2 with
        | error e => rw [hf] at hcon; simp at hcon
        | ok df3 =>
          rw [hf] at hcon
          simp only at hcon
          split_ifs at hcon

/-- C2 witness: both failure modes at concrete inputs. -/
theorem c2_witness :
    load_and_process_data c2NoDateIn = NormResult.noDateCol ∧
      load_and_process_data c2AllBadIn = NormResult.exn "to_datetime" := by
  constructor
  · exact c2_date_errors.1 c2NoDateIn (by decide)
  · exact c2_date_errors.2.1 c2AllBadIn 1 (by decide)
      ⟨[Cell.str "A", Cell.str "nope"], by decide, by rfl⟩

/-- C5 (amended): the calculator performs no parameter validation:
whenever it returns a metrics bundle, the EOQ denominator is the raw
product avgPrice * holdingCostRate, so a zero product flows into the
unguarded division (a non-finite EOQ at runtime) instead of being
surfaced as an InvalidParameterError. -/
theorem c5_no_guard (df : DF) (sku : Cell) (p : Params) (m : MetricsQ)
    (h : computeMetrics df sku p = CalcResult.metrics m) :
    m.eoq_den = m.avg_price * p.holding_cost ∧
      (m.avg_price * p.holding_cost = 0 → m.eoq_den = 0) := by
  simp only [computeMetrics] at h
  split at h
  · cases h
  · split at h
    · cases h
    · split at h
      · cases h
      · split at h
        · cases h
        · split at h
          · split at h
            · cases h
            · cases h
              exact ⟨rfl, fun h0 => h0⟩
          · cases h

/-- C5 witness: the amended theorem at the zero-price dataset. -/
theorem c5_witness :
    c5M.eoq_den = c5M.avg_price * c5P.holding_cost ∧
      (c5M.avg_price * c5P.holding_cost = 0 → c5M.eoq_den = 0) :=
  c5_no_guard c5In (Cell.str "A") c5P c5M (by decide)

/-- C7 (amended): when the accepted dataset has no `Quantity` column, no
row filtering happened at all — the normalizer returns as many rows as the
input had — and the calculator then raises an uncaught KeyError on the
missing `Quantity` column for every SKU and parameter choice, instead of
reporting insufficient data. -/
theorem c7_no_quantity_crash (df df3 : DF) (h : load_and_process_data df = NormResult.ok df3)
    (hq : df3.cols.contains "Quantity" = false) :
    df3.rows.length = df.rows.length ∧
      ∀ (sku : Cell) (p : Params), computeMetrics df3 sku p = CalcResult.keyErr "Quantity" := by
  rcases norm_ok_inv df df3 h with ⟨di, rows1, df2, hdi, hm, hqs, hf, hsku⟩
  have hcols3 : df3.cols = df2.cols := filterStage_cols df2 df3 hf
  have hq2 : df2.cols.contains "Quantity" = false := by rw [← hcols3]; exact hq
  rcases quantityStage_skip _ _ hqs hq2 with ⟨hdf2, _, _, _⟩
  have h32 : df2 = df3 := by
    rw [filterStage_skip df2 hq2] at hf
    injection hf
  constructor
  · rw [← h32, hdf2]
    exact mapRowsE_length _ _ _ hm
  · intro sku p
    rcases findIdxS_some df3.cols "SKU" (by simpa using hsku) with ⟨si, hsi⟩
    have hdmem : "Date" ∈ df3.cols := by
      rw [← h32, hdf2]
      exact findIdxS_mem _ _ _ hdi
    rcases findIdxS_some df3.cols "Date" hdmem with ⟨dj, hdj⟩
    have hqno : df3.cols.findIdx? (fun c => c = "Quantity") = none :=
      findIdxS_none _ _ (by simpa using hq)
    simp only [computeMetrics, hsi, hdj, hqno]

/-- C7 witness: the amended theorem at the concrete quantity-free input. -/
theorem c7_witness :
    load_and_process_data c7In = NormResult.ok c7Out ∧
      c7Out.cols.contains "Quantity" = false ∧
      (c7Out.rows.length = c7In.rows.length ∧
        ∀ (sku : Cell) (p : Params), computeMetrics c7Out sku p = CalcResult.keyErr "Quantity") :=
  ⟨by decide, by decide,
    c7_no_quantity_crash c7In c7Out (by decide) (by decide)⟩

/-- C10: whenever the calculator returns a metrics bundle, the bundle
satisfies exactly the spec formulas — EOQ is the square root of
(2 * avgDailyDemand * 365 * orderingCost) / (avgPrice * holdingCostRate),
safetyStock = avgDailyDemand * leadTime * 1.65, reorderPoint =
avgDailyDemand * leadTime + safetyStock, and totalAnnualCost =
(annualDemand / EOQ) * orderingCost + (EOQ / 2) * avgPrice *
holdingCostRate — and on the Scenario D input (mean daily demand 10,
price 20, orderingCost 50, holdingCostRate 0.2, leadTime 7) the values
are EOQ = sqrt 91250, safetyStock = 115.5, reorderPoint = 185.5. -/
theorem c10_formulas :
    (∀ (df : DF) (sku : Cell) (p : Params) (m : MetricsQ),
      computeMetrics df sku p = CalcResult.metrics m →
        m.annual_demand = m.avg_daily_demand * 365 ∧
        m.ordering_cost = p.ordering_cost ∧
        m.holding_cost = p.holding_cost ∧
        realEoq m = Real.sqrt (((2 * m.annual_demand * p.ordering_cost : ℚ) : ℝ) /
          ((m.avg_price * p.holding_cost : ℚ) : ℝ)) ∧
        m.safety_stock = m.avg_daily_demand * p.lead_time * 1.65 ∧
        m.reorder_point = m.avg_daily_demand * p.lead_time + m.safety_stock ∧
        realTotalCost m = ((m.annual_demand : ℝ) / realEoq m) * (m.ordering_cost : ℝ) +
          (realEoq m / 2) * (m.avg_price : ℝ) * (m.holding_cost : ℝ)) ∧
    (computeMetrics c10In (Cell.str "A") c10P = CalcResult.metrics c10M ∧
      realEoq c10M = Real.sqrt 91250 ∧
      c10M.safety_stock = 231 / 2 ∧ c10M.reorder_point = 371 / 2) := by
  constructor
  · intro df sku p m h
    simp only [computeMetrics] at h
    split at h
    · cases h
    · split at h
      · cases h
      · split at h
        · cases h
        · split at h
          · cases h
          · split at h
            · split at h
              · cases h
              · cases h
                exact ⟨rfl, rfl, rfl, rfl, rfl, rfl, rfl⟩
            · cases h
  · refine ⟨by decide, ?_, by decide,
      by decide⟩
    have harg : ((c10M.eoq_num : ℚ) : ℝ) / ((c10M.eoq_den : ℚ) : ℝ) = 91250 := by
      norm_num [c10M]
    rw [realEoq, harg]

/-- C10 witness: the formula theorem applied at the Scenario D input. -/
theorem c10_witness :
    c10M.annual_demand = c10M.avg_daily_demand * 365 ∧
    c10M.ordering_cost = c10P.ordering_cost ∧
    c10M.holding_cost = c10P.holding_cost ∧
    realEoq c10M = Real.sqrt (((2 * c10M.annual_demand * c10P.ordering_cost : ℚ) : ℝ) /
      ((c10M.avg_price * c10P.holding_cost : ℚ) : ℝ)) ∧
    c10M.safety_stock = c10M.avg_daily_demand * c10P.lead_time * 1.65 ∧
    c10M.reorder_point = c10M.avg_daily_demand * c10P.lead_time + c10M.safety_stock ∧
    realTotalCost c10M = ((c10M.annual_demand : ℝ) / realEoq c10M) * (c10M.ordering_cost : ℝ) +
      (realEoq c10M / 2) * (c10M.avg_price : ℝ) * (c10M.holding_cost : ℝ) :=
  c10_formulas.1 c10In (Cell.str "A") c10P c10M (by decide)

/-- C6 (amended): an input whose header is exactly
`Store, SKU, Quantity, Price, Date` with valid values (parseable dates,
comparable quantities) is never returned unchanged: header
canonicalization rewrites `SKU` to `Sku`, which no alias maps back to
`SKU`, so the normalizer always rejects such input with the
no-product/department error. -/
theorem c6_sku_header_rejected (rows : List Row)
    (hdate : ∀ r ∈ rows, ∃ c, toDatetimeCell (getCellD r 4) = Except.ok c)
    (hqty : ∀ r ∈ rows, ∃ b, gtZeroCell (getCellD r 2) = Except.ok b) :
    load_and_process_data (DF.mk ["Store", "SKU", "Quantity", "Price", "Date"] rows) =
      NormResult.noSkuCol := by
  have hres : resolveCols ["Store", "SKU", "Quantity", "Price", "Date"] =
      ["Store", "Sku", "Quantity", "Price", "Date"] := by decide
  have hfd : List.findIdx? (fun c => c = "Date") ["Store", "Sku", "Quantity", "Price", "Date"] =
      some 4 := by decide
  have hparse : ∀ r ∈ rows, ∃ r2, dateXform 4 r = Except.ok r2 := by
    intro r hr
    rcases hdate r hr with ⟨c, hc⟩
    exact ⟨r.set 4 c, by simp [dateXform, hc, Except.map]⟩
  rcases mapRowsE_ok _ rows hparse with ⟨rows1, h1⟩
  have hquant : quantityStage (DF.mk ["Store", "Sku", "Quantity", "Price", "Date"] rows1) =
      Except.ok (DF.mk ["Store", "Sku", "Quantity", "Price", "Date"] rows1) :=
    quantityStage_quantity _
      (by decide : List.contains ["Store", "Sku", "Quantity", "Price", "Date"] "Quantity" = true)
  have hq1 : ∀ r ∈ rows1, ∃ b, gtZeroCell (getCellD r 2) = Except.ok b := by
    intro r hr
    rcases mapRowsE_mem _ rows rows1 h1 r hr with ⟨r0, hr0, hfr0⟩
    rcases dateXform_ok 4 r0 r hfr0 with ⟨c, _, hrc⟩
    rw [hrc, getCellD_set_ne _ _ _ (by decide) _]
    exact hqty r0 hr0
  rcases filterRowsE_ok (fun r => gtZeroCell (getCellD r 2)) rows1 hq1 with ⟨rows4, hf4⟩
  have hcq : List.contains ["Store", "Sku", "Quantity", "Price", "Date"] "Quantity" = true := by
    decide
  have hidx : (List.findIdx? (fun c => c = "Quantity")
      ["Store", "Sku", "Quantity", "Price", "Date"]).getD 0 = 2 := by decide
  have hfs : filterStage (DF.mk ["Store", "Sku", "Quantity", "Price", "Date"] rows1) =
      Except.ok (DF.mk ["Store", "Sku", "Quantity", "Price", "Date"] rows4) := by
    simp only [filterStage, hcq, hidx, if_true, hf4, Except.map]
  have hskuf : List.contains ["Store", "Sku", "Quantity", "Price", "Date"] "SKU" = false := by
    decide
  simp only [load_and_process_data, normalizeRng, hres, hfd, h1, quantityStageRng_eq, hquant,
    hfs, hskuf, Bool.false_eq_true, if_false]

/-- C6 witness: the amended rejection theorem at the concrete valid-values
input. -/
theorem c6_witness :
    load_and_process_data c6In = NormResult.noSkuCol :=
  c6_sku_header_rejected c6In.rows
    (by
      intro r hr
      have hr0 : r = [Cell.str "S1", Cell.str "A", Cell.num 5, Cell.num 20,
          Cell.str "2020-01-01"] := by simpa [c6In] using hr
      subst hr0
      exact ⟨Cell.date 20200101, rfl⟩)
    (by
      intro r hr
      have hr0 : r = [Cell.str "S1", Cell.str "A", Cell.num 5, Cell.num 20,
          Cell.str "2020-01-01"] := by simpa [c6In] using hr
      subst hr0
      exact ⟨true, rfl⟩)

/-- C3 (amended): for every Scenario B input (columns
`Store, Dept, Weekly_Sales, Date`, rectangular rows, parseable dates,
numeric weekly sales), normalization succeeds by renaming `Dept` to `SKU`:
the output columns are `Store, SKU, Weekly_Sales, Date, Price, Quantity`
and the SKU value of every returned record is the raw `Dept` value of some
input row — no composite "Store {store} - Dept {dept}" key is ever
synthesized. -/
theorem c3_sku_from_dept (rows : List Row)
    (hlen : ∀ r ∈ rows, r.length = 4)
    (hdate : ∀ r ∈ rows, ∃ c, toDatetimeCell (getCellD r 3) = Except.ok c)
    (hws : ∀ r ∈ rows, ∃ q : ℚ, getCellD r 2 = Cell.num q) :
    ∃ df3 : DF,
      load_and_process_data (DF.mk ["Store", "Dept", "Weekly_Sales", "Date"] rows) =
        NormResult.ok df3 ∧
      df3.cols = ["Store", "SKU", "Weekly_Sales", "Date", "Price", "Quantity"] ∧
      ∀ r3 ∈ df3.rows, ∃ r ∈ rows, getCellD r3 1 = getCellD r 1 := by
  have hres : resolveCols ["Store", "Dept", "Weekly_Sales", "Date"] =
      ["Store", "SKU", "Weekly_Sales", "Date"] := by decide
  have hfd : List.findIdx? (fun c => c = "Date") ["Store", "SKU", "Weekly_Sales", "Date"] =
      some 3 := by decide
  have hparse : ∀ r ∈ rows, ∃ r2, dateXform 3 r = Except.ok r2 := by
    intro r hr
    rcases hdate r hr with ⟨c, hc⟩
    exact ⟨r.set 3 c, by simp [dateXform, hc, Except.map]⟩
  rcases mapRowsE_ok _ rows hparse with ⟨rows1, h1⟩
  have hmem1 : ∀ r1 ∈ rows1, ∃ r ∈ rows, r1.length = 4 ∧ getCellD r1 1 = getCellD r 1 ∧
      ∃ q : ℚ, getCellD r1 2 = Cell.num q := by
    intro r1 hr1
    rcases mapRowsE_mem _ rows rows1 h1 r1 hr1 with ⟨r, hr, hfr⟩
    rcases dateXform_ok 3 r r1 hfr with ⟨c, _, hr1e⟩
    subst hr1e
    have hl : r.length = 4 := hlen r hr
    refine ⟨r, hr, by simp [hl], getCellD_set_ne _ _ _ (by decide) _, ?_⟩
    rcases hws r hr with ⟨q, hq⟩
    rw [getCellD_set_ne _ _ _ (by decide) _]
    exact ⟨q, hq⟩
  have hwk := quantityStage_weekly_noPrice (DF.mk ["Store", "SKU", "Weekly_Sales", "Date"] rows1)
    (by decide : List.contains ["Store", "SKU", "Weekly_Sales", "Date"] "Quantity" = false)
    (by decide : (List.contains ["Store", "SKU", "Weekly_Sales", "Date"] "Total" &&
      List.contains ["Store", "SKU", "Weekly_Sales", "Date"] "Price") = false)
    (by decide : List.contains ["Store", "SKU", "Weekly_Sales", "Date"] "Weekly_Sales" = true)
    (by decide : List.findIdx? (fun c => c = "Price") ["Store", "SKU", "Weekly_Sales", "Date"] =
      none)
  dsimp only at hwk
  have hwi : (List.findIdx? (fun c => c = "Weekly_Sales")
      (["Store", "SKU", "Weekly_Sales", "Date"] ++ ["Price"])).getD 0 = 2 := by decide
  have hpi : (List.findIdx? (fun c => c = "Price")
      (["Store", "SKU", "Weekly_Sales", "Date"] ++ ["Price"])).getD 0 = 4 := by decide
  rw [hwi, hpi] at hwk
  have hq2 : ∀ r2 ∈ List.zipWith (fun r p => r ++ [Cell.num p]) rows1
      (npRandint42 rows1.length).1, ∃ r2g, qXform 2 4 r2 = Except.ok r2g := by
    intro r2 hr2
    rcases zipWith_mem _ rows1 (npRandint42 rows1.length).1 r2 hr2 with ⟨r1, hr1, p, hp, he⟩
    subst he
    rcases hmem1 r1 hr1 with ⟨r, hr, hl4, _, q, hq⟩
    have hws2 : getCellD (r1 ++ [Cell.num p]) 2 = Cell.num q := by
      rw [getCellD_append_lt _ _ _ (by rw [hl4]; decide)]
      exact hq
    have hp2 : getCellD (r1 ++ [Cell.num p]) 4 = Cell.num p := by
      have := getCellD_append_self r1 (Cell.num p)
      rwa [hl4] at this
    have hpne : ¬ p = 0 := by
      have h10 := (npRandint42_range rows1.length p hp).1
      intro h0
      rw [h0] at h10
      norm_num at h10
    refine ⟨(r1 ++ [Cell.num p]) ++ [Cell.num ((ratTrunc (q / p) : ℤ) : ℚ)], ?_⟩
    simp [qXform, hws2, hp2, divCast_num q p hpne, Except.map]
  rcases mapRowsE_ok (qXform 2 4) _ hq2 with ⟨rows3, h3⟩
  have h3d : deriveQuantityRows 2 4 (List.zipWith (fun r p => r ++ [Cell.num p]) rows1
      (npRandint42 rows1.length).1) = Except.ok rows3 := h3
  rw [h3d] at hwk
  simp only [Except.map] at hwk
  have hcolseq : (["Store", "SKU", "Weekly_Sales", "Date"] ++ ["Price"]) ++ ["Quantity"] =
      ["Store", "SKU", "Weekly_Sales", "Date", "Price", "Quantity"] := by decide
  rw [hcolseq] at hwk
  have hmem3 : ∀ r3 ∈ rows3, (∃ r ∈ rows, getCellD r3 1 = getCellD r 1) ∧
      ∃ z : ℚ, getCellD r3 5 = Cell.num z := by
    intro r3 hr3
    rcases mapRowsE_mem _ _ rows3 h3 r3 hr3 with ⟨r2, hr2, hfr2⟩
    rcases qXform_ok 2 4 r2 r3 hfr2 with ⟨c, hdc, hr3e⟩
    subst hr3e
    rcases zipWith_mem _ rows1 (npRandint42 rows1.length).1 r2 hr2 with ⟨r1, hr1, p, _, he⟩
    subst he
    rcases hmem1 r1 hr1 with ⟨r, hr, hl4, hcell1, _⟩
    have hl5 : (r1 ++ [Cell.num p]).length = 5 := by simp [hl4]
    constructor
    · refine ⟨r, hr, ?_⟩
      rw [getCellD_append_lt _ _ _ (by rw [hl5]; decide),
        getCellD_append_lt _ _ _ (by rw [hl4]; decide)]
      exact hcell1
    · rcases divCast_ok _ _ _ hdc with ⟨a, b, _, _, _, hce⟩
      refine ⟨((ratTrunc (a / b) : ℤ) : ℚ), ?_⟩
      have := getCellD_append_self (r1 ++ [Cell.num p]) c
      rw [hl5] at this
      rw [this, hce]
  have hq4 : ∀ r3 ∈ rows3, ∃ b, gtZeroCell (getCellD r3 5) = Except.ok b := by
    intro r3 hr3
    rcases (hmem3 r3 hr3).2 with ⟨z, hz⟩
    rw [hz]
    exact ⟨_, rfl⟩
  rcases filterRowsE_ok (fun r => gtZeroCell (getCellD r 5)) rows3 hq4 with ⟨rows4, h4⟩
  have hcq : List.contains ["Store", "SKU", "Weekly_Sales", "Date", "Price", "Quantity"]
      "Quantity" = true := by decide
  have hidx : (List.findIdx? (fun c => c = "Quantity")
      ["Store", "SKU", "Weekly_Sales", "Date", "Price", "Quantity"]).getD 0 = 5 := by decide
  have hfs : filterStage (DF.mk ["Store", "SKU", "Weekly_Sales", "Date", "Price", "Quantity"]
      rows3) = Except.ok (DF.mk ["Store", "SKU", "Weekly_Sales", "Date", "Price", "Quantity"]
      rows4) := by
    simp only [filterStage, hcq, hidx, if_true, h4, Except.map]
  have hskut : List.contains ["Store", "SKU", "Weekly_Sales", "Date", "Price", "Quantity"]
      "SKU" = true := by decide
  refine ⟨DF.mk ["Store", "SKU", "Weekly_Sales", "Date", "Price", "Quantity"] rows4, ?_, rfl, ?_⟩
  · simp only [load_and_process_data, normalizeRng, hres, hfd, h1, quantityStageRng_eq, hwk,
      hfs, hskut, if_true]
  · intro r4 hr4
    rcases filterRowsE_mem _ rows3 rows4 h4 r4 hr4 with ⟨hr3, _⟩
    exact (hmem3 r4 hr3).1

/-- C3 witness: the amended theorem at the concrete Scenario B input. -/
theorem c3_witness :
    (∀ r ∈ c3In.rows, r.length = 4) ∧
      ∃ df3 : DF,
        load_and_process_data (DF.mk ["Store", "Dept", "Weekly_Sales", "Date"] c3In.rows) =
          NormResult.ok df3 ∧
        df3.cols = ["Store", "SKU", "Weekly_Sales", "Date", "Price", "Quantity"] ∧
        ∀ r3 ∈ df3.rows, ∃ r ∈ c3In.rows, getCellD r3 1 = getCellD r 1 := by
  refine ⟨by decide, c3_sku_from_dept c3In.rows (by decide) ?_ ?_⟩
  · intro r hr
    have hr0 : r = [Cell.num 1, Cell.num 5, Cell.num 200, Cell.str "2020-01-01"] := by
      simpa [c3In] using hr
    subst hr0
    exact ⟨Cell.date 20200101, rfl⟩
  · intro r hr
    have hr0 : r = [Cell.num 1, Cell.num 5, Cell.num 200, Cell.str "2020-01-01"] := by
      simpa [c3In] using hr
    subst hr0
    exact ⟨200, rfl⟩

/-- C4 (amended): whenever the `Weekly_Sales` synthesis branch runs, the
price of the `i`-th row is exactly the `i`-th value of the fixed-seed-42
generator stream — identical across runs, in [10, 100), but assigned by
row position rather than by SKU identity, so it is not stable under row
permutation and rows sharing a SKU need not share a price. -/
theorem c4_prices_per_row (df df2 : DF)
    (hrect : ∀ r ∈ df.rows, r.length = df.cols.length)
    (h1 : df.cols.contains "Quantity" = false)
    (h2 : (df.cols.contains "Total" && df.cols.contains "Price") = false)
    (h3 : df.cols.contains "Weekly_Sales" = true)
    (hq : quantityStage df = Except.ok df2) :
    ∀ i, i < df.rows.length →
      ∃ p : ℚ,
        getCellD (df2.rows.getD i []) ((df2.cols.findIdx? (fun c => c = "Price")).getD 0) =
          Cell.num p ∧
        p = ((npRandint42 df.rows.length).1).getD i 0 ∧ (10 : ℚ) ≤ p ∧ p < 100 := by
  intro i hi
  have hplen : ((npRandint42 df.rows.length).1).length = df.rows.length := npRandint42_length _
  have hpmem : ((npRandint42 df.rows.length).1).getD i 0 ∈ (npRandint42 df.rows.length).1 :=
    getD_mem_of_lt _ i 0 (by rw [hplen]; exact hi)
  have hrange := npRandint42_range df.rows.length _ hpmem
  have hrowmem : df.rows.getD i [] ∈ df.rows := getD_mem_of_lt _ i [] hi
  have hrl : (df.rows.getD i []).length = df.cols.length := hrect _ hrowmem
  cases hp : df.cols.findIdx? (fun c => c = "Price") with
  | some pIdx =>
    rw [quantityStage_weekly_price df h1 h2 h3 pIdx hp] at hq
    rcases exceptMap_ok _ _ _ hq with ⟨rows3, hd, hdf⟩
    subst hdf
    have hfind : (List.findIdx? (fun c => c = "Price") (df.cols ++ ["Quantity"])).getD 0 =
        pIdx := by
      rw [findIdxP_append_left _ df.cols ["Quantity"] 0 pIdx hp]
      rfl
    dsimp only
    rw [hfind]
    have hzlen : (List.zipWith (fun r p => r.set pIdx (Cell.num p)) df.rows
        (npRandint42 df.rows.length).1).length = df.rows.length := by
      simp [List.length_zipWith, hplen]
    have hpt := mapRowsE_get _ _ _ hd i (by rw [hzlen]; exact hi)
    rcases qXform_ok _ _ _ _ hpt with ⟨c, _, he⟩
    have hz := zipWith_getD (fun (r : Row) (p : ℚ) => r.set pIdx (Cell.num p)) ([] : Row)
      (0 : ℚ) ([] : Row) df.rows (npRandint42 df.rows.length).1 i hi (by rw [hplen]; exact hi)
    have hpIdxlt : pIdx < df.cols.length := findIdxS_lt _ _ _ hp
    rw [he, hz]
    rw [getCellD_append_lt _ _ _ (by rw [List.length_set, hrl]; exact hpIdxlt)]
    rw [getCellD_set_lt _ _ (by rw [hrl]; exact hpIdxlt) _]
    exact ⟨_, rfl, rfl, hrange.1, hrange.2⟩
  | none =>
    rw [quantityStage_weekly_noPrice df h1 h2 h3 hp] at hq
    rcases exceptMap_ok _ _ _ hq with ⟨rows3, hd, hdf⟩
    subst hdf
    have hfinner : List.findIdx? (fun c => c = "Price") (df.cols ++ ["Price"]) =
        some df.cols.length := by
      rw [findIdxP_append_right _ df.cols ["Price"] 0 hp]
      simp [List.findIdx?]
    have hfind : (List.findIdx? (fun c => c = "Price")
        ((df.cols ++ ["Price"]) ++ ["Quantity"])).getD 0 = df.cols.length := by
      rw [findIdxP_append_left _ (df.cols ++ ["Price"]) ["Quantity"] 0 df.cols.length hfinner]
      rfl
    dsimp only
    rw [hfind]
    have hzlen : (List.zipWith (fun (r : Row) (p : ℚ) => r ++ [Cell.num p]) df.rows
        (npRandint42 df.rows.length).1).length = df.rows.length := by
      simp [List.length_zipWith, hplen]
    have hpt := mapRowsE_get _ _ _ hd i (by rw [hzlen]; exact hi)
    rcases qXform_ok _ _ _ _ hpt with ⟨c, _, he⟩
    have hz := zipWith_getD (fun (r : Row) (p : ℚ) => r ++ [Cell.num p]) ([] : Row)
      (0 : ℚ) ([] : Row) df.rows (npRandint42 df.rows.length).1 i hi (by rw [hplen]; exact hi)
    rw [he, hz]
    rw [getCellD_append_lt _ _ _
      (by simp only [List.length_append, List.length_cons, List.length_nil, hrl]; omega)]
    have hself := getCellD_append_self (df.rows.getD i [])
      (Cell.num (((npRandint42 df.rows.length).1).getD i 0))
    rw [hrl] at hself
    rw [hself]
    exact ⟨_, rfl, rfl, hrange.1, hrange.2⟩

/-- C4 witness: the per-row price theorem at a concrete two-row input of a
single SKU. -/
theorem c4_witness :
    quantityStage c4wIn = Except.ok c4wOut ∧
      (∀ i, i < c4wIn.rows.length →
        ∃ p : ℚ,
          getCellD (c4wOut.rows.getD i []) ((c4wOut.cols.findIdx? (fun c => c = "Price")).getD 0) =
            Cell.num p ∧
          p = ((npRandint42 c4wIn.rows.length).1).getD i 0 ∧ (10 : ℚ) ≤ p ∧ p < 100) :=
  ⟨by rfl,
    c4_prices_per_row c4wIn c4wOut (by decide) (by decide) (by decide) (by decide) (by rfl)⟩

/-- C8 (amended): quantity resolution leaves an existing `Price` column
untouched whenever a `Quantity` column exists, or a `Total` column exists
alongside it, or no `Weekly_Sales` column exists; only the
`Weekly_Sales` branch (no `Quantity`, no `Total`) overwrites it. -/
theorem c8_price_preserved (df df2 : DF) (pIdx : Nat)
    (hrect : ∀ r ∈ df.rows, r.length = df.cols.length)
    (hp : df.cols.findIdx? (fun c => c = "Price") = some pIdx)
    (hcond : df.cols.contains "Quantity" = true ∨ df.cols.contains "Total" = true ∨
      df.cols.contains "Weekly_Sales" = false)
    (hq : quantityStage df = Except.ok df2) :
    df2.rows.length = df.rows.length ∧
      ∀ i, i < df.rows.length →
        getCellD (df2.rows.getD i []) pIdx = getCellD (df.rows.getD i []) pIdx := by
  have hpmem : "Price" ∈ df.cols := findIdxS_mem _ _ _ hp
  have hpcontains : df.cols.contains "Price" = true := by simpa using hpmem
  have hpIdxlt : pIdx < df.cols.length := findIdxS_lt _ _ _ hp
  by_cases hq1 : df.cols.contains "Quantity" = true
  · rw [quantityStage_quantity df hq1] at hq
    have h2 : df = df2 := by injection hq
    subst h2
    exact ⟨rfl, fun i _ => rfl⟩
  · have hq1f : df.cols.contains "Quantity" = false := by
      cases hv : df.cols.contains "Quantity"
      · rfl
      · exact absurd hv hq1
    by_cases ht : df.cols.contains "Total" = true
    · rw [quantityStage_total df hq1f (by rw [ht, hpcontains]; rfl)] at hq
      rcases exceptMap_ok _ _ _ hq with ⟨rows2, hd, hdf⟩
      subst hdf
      have hlen2 : rows2.length = df.rows.length := mapRowsE_length _ _ _ hd
      refine ⟨hlen2, ?_⟩
      intro i hi
      have hpt := mapRowsE_get _ _ _ hd i hi
      rcases qXform_ok _ _ _ _ hpt with ⟨c, _, he⟩
      dsimp only
      rw [he]
      exact getCellD_append_lt _ _ _ (by rw [hrect _ (getD_mem_of_lt _ i [] hi)]; exact hpIdxlt)
    · have htf : df.cols.contains "Total" = false := by
        cases hv : df.cols.contains "Total"
        · rfl
        · exact absurd hv ht
      have hwf : df.cols.contains "Weekly_Sales" = false := by
        rcases hcond with hc | hc | hc
        · exact absurd hc hq1
        · exact absurd hc ht
        · exact hc
      rw [quantityStage_none df hq1f (by rw [htf]; rfl) hwf] at hq
      have h2 : df = df2 := by injection hq
      subst h2
      exact ⟨rfl, fun i _ => rfl⟩

/-- C8 witness: the preservation theorem at a concrete input with a
`Quantity` column alongside `Price`. -/
theorem c8_witness :
    quantityStage c8wIn = Except.ok c8wIn ∧
      (c8wIn.rows.length = c8wIn.rows.length ∧
        ∀ i, i < c8wIn.rows.length →
          getCellD (c8wIn.rows.getD i []) 1 = getCellD (c8wIn.rows.getD i []) 1) :=
  ⟨by rfl,
    c8_price_preserved c8wIn c8wIn 1 (by decide) (by decide) (Or.inl (by decide)) (by rfl)⟩


end
